import Mathlib

/-!
# Verification of the moneymanager statement-ingestion service

Shallow embedding of the Go sources of `billdaws/moneymanager` together with
proofs about the embedded definitions.

Implemented code embedded from `src/`:
* `internal/statement/validator.go` — `ValidateFile`, PDF sniffing;
* `internal/database` (schema + queries) — the metadata SQLite store for
  statements, raw transaction rows and the processing log, including the
  identifier generation via `github.com/google/uuid`;
* `internal/statement/store.go` — the `Store` wrapper and the `Processor`
  pipeline `validate → hash → dedup → extract → store`;
* the health handler (`isWritable`, `ServeHTTP`).

The GnuCash ledger-writer core (`internal/gnucash/`, Phases 3–4 of the plan)
is not present in the repository sources; the definitions for it in the final
section are modelled from the specification text and are marked as such.

External collaborators (Go standard library content sniffing, SHA-256, JSON
marshalling, the Kreuzberg HTTP client, the random source feeding the UUID
generator, the filesystem, and the wall clock) are abstracted as explicit
function parameters of the embedding, so every definition stays executable
and deterministic.
-/

deriving instance DecidableEq for Except

namespace MoneyManager

/-! ## Identifier generation (`github.com/google/uuid`)

`CreateStatement` and `InsertTransactionRaw` in `internal/database` generate
row identifiers with `uuid.New().String()`.  `uuid.New` draws 16 random bytes
and forces the RFC 4122 version-4 and variant bits; `String` renders the 16
bytes as lowercase hex in the hyphenated 8-4-4-4-12 layout.  The random source
is passed in as the 16-byte `entropy` list. -/

/-- Lowercase hexadecimal digit, as emitted by `encoding/hex` and by
`uuid.UUID.String` (digits `0`–`9` then letters `a`–`f`). -/
def hexDigit (n : Nat) : Char :=
  if n < 10 then Char.ofNat (48 + n) else Char.ofNat (87 + n)

/-- Hex encoding of one byte (value `< 256`) as two lowercase hex chars. -/
def byteHex (b : Nat) : List Char :=
  [hexDigit (b / 16), hexDigit (b % 16)]

/-- `uuid.NewRandom`: after filling 16 random bytes `u`, the library sets
`u[6] = (u[6] & 0x0f) | 0x40` (version 4) and `u[8] = (u[8] & 0x3f) | 0x80`
(RFC 4122 variant). -/
def setVersion4 (bytes : List Nat) : List Nat :=
  let b := bytes.set 6 (bytes.getD 6 0 % 16 + 64)
  b.set 8 (b.getD 8 0 % 64 + 128)

/-- `uuid.UUID.String`: the hyphenated 8-4-4-4-12 lowercase-hex rendering of
the 16 UUID bytes. -/
def uuidStringOfBytes (b : List Nat) : String :=
  String.mk (((b.take 4).map byteHex).flatten ++ ['-']
    ++ (((b.drop 4).take 2).map byteHex).flatten ++ ['-']
    ++ (((b.drop 6).take 2).map byteHex).flatten ++ ['-']
    ++ (((b.drop 8).take 2).map byteHex).flatten ++ ['-']
    ++ ((b.drop 10).map byteHex).flatten)

/-- `uuid.New().String()` as called by `CreateStatement` and
`InsertTransactionRaw`, as a function of the 16 random bytes drawn. -/
def newUUIDString (entropy : List Nat) : String :=
  uuidStringOfBytes (setVersion4 entropy)

/-- Is `c` a lowercase hexadecimal character (`0`–`9` or `a`–`f`)? -/
def isLowerHexChar (c : Char) : Bool :=
  (48 ≤ c.toNat && c.toNat ≤ 57) || (97 ≤ c.toNat && c.toNat ≤ 102)

/-- The identifier format claimed by the specification: exactly 32
lowercase hexadecimal characters. -/
def isSpecIdentifier (s : String) : Bool :=
  s.length == 32 && s.data.all isLowerHexChar

/-! ## `internal/statement/validator.go` -/

/-- The PDF magic bytes `"%PDF-"` checked by `ValidateFile`. -/
def pdfMagic : List Nat := [37, 80, 68, 70, 45]

/-- `ValidateFile` from `internal/statement/validator.go`.  The Go stdlib
content sniffer `http.DetectContentType` is an external collaborator and is
abstracted as the `detect` parameter; file bytes are the `data` list.
Returns the accepted MIME type, or the error message. -/
def validateFile (detect : List Nat → String) (data : List Nat) (maxSizeMB : Int)
    (allowedTypes : List String) : Except String String :=
  let maxBytes : Int := maxSizeMB * 1024 * 1024
  if (data.length : Int) > maxBytes then
    .error ("file size " ++ toString data.length ++ " bytes exceeds maximum "
      ++ toString maxSizeMB ++ " MB")
  else if data.length = 0 then
    .error "file is empty"
  else
    let sniffed := detect data
    let mimeType := if 5 ≤ data.length && data.take 5 == pdfMagic then
      "application/pdf" else sniffed
    if allowedTypes.contains mimeType then
      .ok mimeType
    else if (mimeType == "text/plain; charset=utf-8" || mimeType == "text/plain")
        && allowedTypes.contains "text/csv" then
      .ok "text/csv"
    else
      .error ("file type " ++ mimeType ++ " is not allowed")

/-! ## Metadata database (`internal/database`: the schema constant and the
`DB` query methods)

The SQLite metadata store.  Tables are lists of rows; the constraints declared
in the schema (`PRIMARY KEY` on `id`, `UNIQUE` on `statements.file_hash`, the
`CHECK(status IN ('pending','processing','processed','failed'))` clause, and
the `FOREIGN KEY (statement_id)` references, enforced because the connection
sets `_foreign_keys=ON`) are modelled by making the corresponding `INSERT` /
`UPDATE` statements fail exactly when SQLite would reject them. -/

/-- A row of the `statements` table. -/
structure StatementRow where
  id : String
  filename : String
  fileHash : String
  fileSize : Int
  mimeType : String
  status : String
  transactionCount : Int
  accountType : String
  accountName : String
  statementDate : String
  errorMessage : String
  uploadTime : String
  processedTime : String
deriving DecidableEq

/-- A row of the `transactions_raw` table (`headers` and `raw_data` hold the
JSON-marshalled arrays). -/
structure TransactionRawRow where
  id : String
  statementId : String
  rowIndex : Int
  headers : String
  rawData : String
  createdAt : String
deriving DecidableEq

/-- A row of the `processing_log` table (the AUTOINCREMENT integer key is
implicit in the list position). -/
structure LogRow where
  statementId : String
  level : String
  stage : String
  message : String
  createdAt : String
deriving DecidableEq

/-- The metadata database state: the three tables created by the schema. -/
structure MetaDB where
  statements : List StatementRow
  transactionsRaw : List TransactionRawRow
  processingLog : List LogRow
deriving DecidableEq

/-- The empty database produced by running the migrations on a fresh file. -/
def MetaDB.empty : MetaDB := ⟨[], [], []⟩

/-- The four statement statuses admitted by the schema's CHECK constraint. -/
def validStatuses : List String := ["pending", "processing", "processed", "failed"]

/-- `GetStatementByHash`: `SELECT ... FROM statements WHERE file_hash = ?`
(`nil` when no row matches). -/
def getStatementByHash (db : MetaDB) (fileHash : String) : Option StatementRow :=
  db.statements.find? (fun r => r.fileHash == fileHash)

/-- `DB.CreateStatement`: generates `id := uuid.New().String()` (from the 16
`entropy` bytes), inserts a `'pending'` row with upload time `now`, and
returns the id.  The insert fails when the `id` primary key or the
`file_hash` unique index would be violated. -/
def createStatement (db : MetaDB) (entropy : List Nat) (now : String)
    (filename fileHash : String) (fileSize : Int)
    (mimeType accountType accountName statementDate : String) :
    Except String (MetaDB × String) :=
  if db.statements.any (fun r => r.id == newUUIDString entropy) then
    .error "insert statement: UNIQUE constraint failed: statements.id"
  else if db.statements.any (fun r => r.fileHash == fileHash) then
    .error "insert statement: UNIQUE constraint failed: statements.file_hash"
  else
    .ok ({ db with statements := db.statements ++
      [{ id := newUUIDString entropy, filename := filename, fileHash := fileHash,
         fileSize := fileSize, mimeType := mimeType, status := "pending",
         transactionCount := 0, accountType := accountType,
         accountName := accountName, statementDate := statementDate,
         errorMessage := "", uploadTime := now, processedTime := "" }] },
      newUUIDString entropy)

/-- `UPDATE statements SET ... WHERE id = ?`, applying `u` to the matching
row (SQLite updates every row whose `id` matches; `id` is the primary key). -/
def updateRow (db : MetaDB) (id : String) (u : StatementRow → StatementRow) :
    MetaDB :=
  { db with statements := db.statements.map (fun r => if r.id == id then u r else r) }

/-- `DB.UpdateStatus`: `UPDATE statements SET status = ? WHERE id = ?`.
The schema's CHECK constraint rejects any status outside the four values. -/
def updateStatus (db : MetaDB) (id status : String) : Except String MetaDB :=
  if validStatuses.contains status then
    .ok (updateRow db id (fun r => { r with status := status }))
  else
    .error "CHECK constraint failed: status"

/-- `DB.MarkProcessed`: sets status `'processed'`, the transaction count and
the processed time. -/
def markProcessed (db : MetaDB) (id : String) (transactionCount : Int)
    (now : String) : MetaDB :=
  updateRow db id (fun r =>
    { r with status := "processed", transactionCount := transactionCount,
             processedTime := now })

/-- `DB.MarkFailed`: sets status `'failed'`, the error message and the
processed time. -/
def markFailed (db : MetaDB) (id errorMessage : String) (now : String) : MetaDB :=
  updateRow db id (fun r =>
    { r with status := "failed", errorMessage := errorMessage,
             processedTime := now })

/-- `DB.InsertTransactionRaw`: generates `id := uuid.New().String()`, inserts
the row, returns the id.  Fails on a duplicate primary key or when the
`statement_id` foreign key does not resolve. -/
def insertTransactionRaw (db : MetaDB) (entropy : List Nat)
    (statementId : String) (rowIndex : Int) (headers rawData now : String) :
    Except String (MetaDB × String) :=
  if db.transactionsRaw.any (fun r => r.id == newUUIDString entropy) then
    .error "insert transaction_raw: UNIQUE constraint failed: transactions_raw.id"
  else if !(db.statements.any (fun r => r.id == statementId)) then
    .error "insert transaction_raw: FOREIGN KEY constraint failed"
  else
    .ok ({ db with transactionsRaw := db.transactionsRaw ++
      [{ id := newUUIDString entropy, statementId := statementId, rowIndex := rowIndex,
         headers := headers, rawData := rawData, createdAt := now }] },
      newUUIDString entropy)

/-- `DB.InsertLogEntry`: appends a processing-log row; fails when the
`statement_id` foreign key does not resolve. -/
def insertLogEntry (db : MetaDB) (statementId level stage message now : String) :
    Except String MetaDB :=
  if db.statements.any (fun r => r.id == statementId) then
    .ok { db with processingLog := db.processingLog ++
      [{ statementId := statementId, level := level, stage := stage,
         message := message, createdAt := now }] }
  else
    .error "insert log: FOREIGN KEY constraint failed"

/-! ## Statement store and processor (`internal/statement/store.go`) -/

/-- A table extracted by Kreuzberg (`internal/kreuzberg/types.go`); the
processor only reads `Headers` and `Rows`, so the remaining fields of
`ExtractionResult` (content, metadata, chunks, images, languages) are not
modelled. -/
structure ExtractTable where
  headers : List String
  rows : List (List String)
deriving DecidableEq

/-- An extraction result as consumed by `StoreExtractionResults`. -/
structure ExtractionResult where
  tables : List ExtractTable
deriving DecidableEq

/-- `ProcessResult` from `store.go` (the wall-clock `ProcessingTimeMs` field
is not modelled). -/
structure ProcessResult where
  statementID : String
  filename : String
  status : String
  transactionsExtracted : Int
  duplicate : Bool
deriving DecidableEq

/-- The external collaborators of the processor, abstracted as functions:
the stdlib content sniffer, the SHA-256 hex digest (`HashFile`), stdlib JSON
marshalling of a string array (which never errors), the Kreuzberg client
(`Client.Extract`, returning results or the error message), the random source
feeding `uuid.New` (indexed by draw count), an injectable SQLite driver error
for the `INSERT` issued by `InsertTransactionRaw` (indexed by call count;
`none` means the insert reaches the table), and the RFC 3339 clock value. -/
structure ProcEnv where
  detect : List Nat → String
  hash : List Nat → String
  marshal : List String → String
  extract : String → List Nat → String → Except String (List ExtractionResult)
  uuidEntropy : Nat → List Nat
  rawInsertErr : Nat → Option String
  now : String

/-- The processor-visible state: the metadata database plus the counters
that index the abstracted collaborators (UUID draws so far, raw-insert calls
so far) and an observation counter of Kreuzberg `Extract` invocations. -/
structure ProcState where
  db : MetaDB
  uuidCount : Nat
  rawCalls : Nat
  extractCalls : Nat
deriving DecidableEq

/-- `Store.Log`: best-effort logging whose error is silently ignored. -/
def storeLog (env : ProcEnv) (st : ProcState)
    (statementId level stage message : String) : ProcState :=
  match insertLogEntry st.db statementId level stage message env.now with
  | .ok db' => { st with db := db' }
  | .error _ => st

/-- One `db.InsertTransactionRaw` call as issued by `StoreExtractionResults`:
the injectable driver error fires first (disk full, lock contention, ...),
otherwise the modelled insert runs. -/
def rawInsert (env : ProcEnv) (st : ProcState) (statementId : String)
    (rowIndex : Int) (headers rawData : String) :
    ProcState × Except String Unit :=
  match env.rawInsertErr st.rawCalls with
  | some e =>
      ({ st with rawCalls := st.rawCalls + 1, uuidCount := st.uuidCount + 1 }, .error e)
  | none =>
      match insertTransactionRaw st.db (env.uuidEntropy st.uuidCount)
          statementId rowIndex headers rawData env.now with
      | .ok (db', _) =>
          ({ st with db := db'
                     rawCalls := st.rawCalls + 1
                     uuidCount := st.uuidCount + 1 }, .ok ())
      | .error e =>
          ({ st with rawCalls := st.rawCalls + 1
                     uuidCount := st.uuidCount + 1 }, .error e)

/-- The inner row loop of `StoreExtractionResults` for one table: inserts each
row with the running `totalRows` index, wrapping an insert error as
`insert row N: ...` exactly as the Go code does.  Returns the state after the
rows inserted so far (earlier inserts persist even when a later one fails:
the Go code issues them as independent statements, not one transaction). -/
def insertRows (env : ProcEnv) (statementId headersJSON : String) :
    List (List String) → Nat → ProcState → ProcState × Except String Nat
  | [], totalRows, st => (st, .ok totalRows)
  | row :: rest, totalRows, st =>
      match rawInsert env st statementId (Int.ofNat totalRows) headersJSON
          (env.marshal row) with
      | (st', .error e) =>
          (st', .error ("insert row " ++ toString totalRows ++ ": " ++ e))
      | (st', .ok _) => insertRows env statementId headersJSON rest (totalRows + 1) st'

/-- The table loop of `StoreExtractionResults` over one extraction result. -/
def insertTables (env : ProcEnv) (statementId : String) :
    List ExtractTable → Nat → ProcState → ProcState × Except String Nat
  | [], totalRows, st => (st, .ok totalRows)
  | table :: rest, totalRows, st =>
      match insertRows env statementId (env.marshal table.headers) table.rows
          totalRows st with
      | (st', .error e) => (st', .error e)
      | (st', .ok n) => insertTables env statementId rest n st'

/-- `Store.StoreExtractionResults`: iterates results, tables and rows,
returning the total number of rows stored (marshalling of a string array
cannot fail, so the two `json.Marshal` error branches are dead). -/
def storeExtractionResults (env : ProcEnv) (statementId : String) :
    List ExtractionResult → Nat → ProcState → ProcState × Except String Nat
  | [], totalRows, st => (st, .ok totalRows)
  | res :: rest, totalRows, st =>
      match insertTables env statementId res.tables totalRows st with
      | (st', .error e) => (st', .error e)
      | (st', .ok n) => storeExtractionResults env statementId rest n st'

/-- `Processor.Process` from `store.go`: the full upload lifecycle
`validate → hash → dedup → create → mark processing → extract → store →
mark processed`.  A `.error` return is the Go `(nil, err)` case; a `.ok`
return is a structured `ProcessResult`.  The `extractCalls` counter of the
state increments exactly when `kreuzberg.Extract` is invoked.  The Go code
ignores the error of the `MarkFailed` calls (`_ = p.store.MarkFailed(...)`);
the modelled `markFailed` update is total, matching an UPDATE that violates
no schema constraint. -/
def process (env : ProcEnv) (maxSizeMB : Int) (allowedTypes : List String)
    (filename : String) (data : List Nat)
    (accountType accountName statementDate : String) (st : ProcState) :
    ProcState × Except String ProcessResult :=
  match validateFile env.detect data maxSizeMB allowedTypes with
  | .error e => (st, .error ("validation failed: " ++ e))
  | .ok mimeType =>
    let fileHash := env.hash data
    match getStatementByHash st.db fileHash with
    | some existing =>
        (st, .ok { statementID := existing.id, filename := existing.filename,
                   status := existing.status,
                   transactionsExtracted := existing.transactionCount,
                   duplicate := true })
    | none =>
      match createStatement st.db (env.uuidEntropy st.uuidCount) env.now
          filename fileHash (Int.ofNat data.length) mimeType accountType
          accountName statementDate with
      | .error e =>
          ({ st with uuidCount := st.uuidCount + 1 },
           .error ("create statement: " ++ e))
      | .ok (db1, statementID) =>
        let st1 : ProcState := { st with db := db1, uuidCount := st.uuidCount + 1 }
        let st2 := storeLog env st1 statementID "info" "upload" "Statement created"
        match updateStatus st2.db statementID "processing" with
        | .error e => (st2, .error ("mark processing: " ++ e))
        | .ok db2 =>
          let st3 : ProcState := { st2 with db := db2 }
          let st4 := storeLog env st3 statementID "info" "extraction" "Sending to Kreuzberg"
          let st5 : ProcState := { st4 with extractCalls := st4.extractCalls + 1 }
          match env.extract filename data mimeType with
          | .error e =>
              let st6 := storeLog env st5 statementID "error" "extraction" e
              let st7 : ProcState :=
                { st6 with db := markFailed st6.db statementID e env.now }
              (st7, .ok { statementID := statementID, filename := filename,
                          status := "failed", transactionsExtracted := 0,
                          duplicate := false })
          | .ok results =>
            let st6 := storeLog env st5 statementID "info" "extraction"
              ("Received " ++ toString results.length ++ " extraction results")
            match storeExtractionResults env statementID results 0 st6 with
            | (st7, .error e) =>
                let st8 := storeLog env st7 statementID "error" "storage" e
                let st9 : ProcState :=
                  { st8 with db := markFailed st8.db statementID e env.now }
                (st9, .ok { statementID := statementID, filename := filename,
                            status := "failed", transactionsExtracted := 0,
                            duplicate := false })
            | (st7, .ok rowCount) =>
                let db8 := markProcessed st7.db statementID (Int.ofNat rowCount) env.now
                let st8 : ProcState := { st7 with db := db8 }
                let st9 := storeLog env st8 statementID "info" "complete"
                  ("Processed " ++ toString rowCount ++ " transactions")
                (st9, .ok { statementID := statementID, filename := filename,
                            status := "processed",
                            transactionsExtracted := Int.ofNat rowCount,
                            duplicate := false })

/-! ## Health handler (`internal/server/handlers/health.go`)

`server.New` wires `/health` to the handler with real dependency checks.
The filesystem is abstracted as a map from path to the `os.Stat` outcome
(`none` models a Stat error: file absent). -/

/-- What `os.Stat` reports about an existing file, plus whether the file is
actually writable by the process (mode/permissions); `isWritable` in the Go
code never consults the latter. -/
structure FileStat where
  isRegular : Bool
  writable : Bool
deriving DecidableEq

/-- `isWritable` from `health.go`: `os.Stat` error means `false`; otherwise
the result is `info.Mode().IsRegular()` — write permission is not checked. -/
def isWritable (fs : String → Option FileStat) (path : String) : Bool :=
  match fs path with
  | none => false
  | some info => info.isRegular

/-- Is the file at `path` present and writable (the property named by the
spec's health-check description)? -/
def presentAndWritable (fs : String → Option FileStat) (path : String) : Bool :=
  match fs path with
  | none => false
  | some info => info.writable

/-- The `/health` JSON body. -/
structure HealthResponse where
  status : String
  kreuzbergAvailable : Bool
  gnuCashDBWritable : Bool
  metadataDBConnected : Bool
deriving DecidableEq

/-- `HealthHandler.ServeHTTP` on a GET request: `kreuzbergOK` and
`metadataOK` are the outcomes of the two external pings (`Health() == nil`,
`Ping() == nil`); the response's `gnucash_db_writable` field is the
`isWritable` result on the configured GnuCash path. -/
def healthResponse (kreuzbergOK metadataOK : Bool)
    (fs : String → Option FileStat) (gnucashPath : String) : HealthResponse :=
  { status := if !kreuzbergOK || !metadataOK then "degraded" else "healthy",
    kreuzbergAvailable := kreuzbergOK,
    gnuCashDBWritable := isWritable fs gnucashPath,
    metadataDBConnected := metadataOK }

/-! ## The GnuCash ledger-writer core

The repository's `internal/gnucash/` package (Phases 3–4 of the plan:
writer, account resolver, split balancing, single-worker write queue) is not
present under `src/`; every definition in this section is modelled from the
specification (§3–§5 and §4.1–§4.6 of `spec.md`) and is marked as such. -/

/-- Modelled from the spec: the typed error taxonomy of §7 for the missing
ledger-writer core. -/
inductive CommitError
  | precisionError
  | denominatorMismatch
  | unmappedAccount
  | imbalancedTransactionError
  | timeout
  | storageError
deriving DecidableEq

/-- Modelled from the spec: a decimal input amount, `mantissa / 10 ^ scale`
(e.g. `10.505` is `⟨10505, 3⟩`), as consumed by `from_decimal` (§4.2) of the
missing Rational Amount component. -/
structure DecimalAmount where
  mantissa : Int
  scale : Nat
deriving DecidableEq

/-- Modelled from the spec: money as integer numerator over a
commodity-defined integer denominator (§4.2), for the missing Rational
Amount component. -/
structure RationalAmount where
  num : Int
  denom : Int
deriving DecidableEq

/-- Modelled from the spec: `from_decimal(value, denominator)` (§4.2) of the
missing Rational Amount component — returns the exact integer numerator
(`10.50` with denominator `100` gives `1050`), or `PrecisionError` when the
decimal has more fractional precision than the denominator supports (the
scaled value `mantissa * denominator / 10 ^ scale` is not an integer). -/
def fromDecimal (d : DecimalAmount) (denominator : Int) :
    Except CommitError RationalAmount :=
  if d.mantissa * denominator % (10 : Int) ^ d.scale = 0 then
    .ok ⟨d.mantissa * denominator / (10 : Int) ^ d.scale, denominator⟩
  else
    .error .precisionError

/-- Modelled from the spec: `negate()` (§4.2). -/
def RationalAmount.negate (a : RationalAmount) : RationalAmount :=
  ⟨-a.num, a.denom⟩

/-- Modelled from the spec: `add(other)` (§4.2) — exact integer addition,
requiring equal denominators and failing with `DenominatorMismatch`
otherwise. -/
def RationalAmount.add (a b : RationalAmount) : Except CommitError RationalAmount :=
  if a.denom = b.denom then .ok ⟨a.num + b.num, a.denom⟩
  else .error .denominatorMismatch

/-- Modelled from the spec: `is_zero()` (§4.2) — exact equality to zero. -/
def RationalAmount.isZero (a : RationalAmount) : Bool :=
  a.num == 0

/-- Modelled from the spec: an account node of the strict tree (§3), kept in
an arena of records with parent references stored as identifiers (§9). -/
structure Account where
  id : String
  name : String
  parentId : Option String
  acctType : String
  commodityId : String
deriving DecidableEq

/-- Modelled from the spec: one split — a signed rational amount entry tied
to one account (§3). -/
structure Split where
  id : String
  accountId : String
  amount : RationalAmount
deriving DecidableEq

/-- Modelled from the spec: one posting event with its ordered splits (§3);
`denom` is the fractional denominator of the transaction's commodity. -/
structure LedgerTransaction where
  id : String
  date : String
  description : String
  commodityId : String
  denom : Int
  splits : List Split
deriving DecidableEq

/-- Modelled from the spec: the book — the account arena rooted at
`rootAccountId` plus the committed transactions (§3). -/
structure Book where
  rootAccountId : String
  accounts : List Account
  transactions : List LedgerTransaction
deriving DecidableEq

/-- Modelled from the spec: matching one path segment to an existing child of
`parentId` by name (§4.3). -/
def findChild (accounts : List Account) (parentId name : String) :
    Option Account :=
  accounts.find? (fun a => a.parentId == some parentId && a.name == name)

/-- Modelled from the spec: the Account Resolver walk (§4.3) — from `cur`,
match each segment to an existing child by name; on a missing segment create
it with a fresh identifier (`fresh k`, `k` the running identifier-draw
counter) only when `autoCreate` is true, else fail with `UnmappedAccount`.
Returns the resolved account id, the (possibly extended) arena and the new
draw counter. -/
def resolveWalk (accounts : List Account) (cur : String) (segs : List String)
    (autoCreate : Bool) (acctType commodityId : String) (fresh : Nat → String)
    (k : Nat) : Except CommitError (String × List Account × Nat) :=
  match segs with
  | [] => .ok (cur, accounts, k)
  | seg :: rest =>
    match findChild accounts cur seg with
    | some child =>
        resolveWalk accounts child.id rest autoCreate acctType commodityId fresh k
    | none =>
        if autoCreate then
          let a : Account := ⟨fresh k, seg, some cur, acctType, commodityId⟩
          resolveWalk (accounts ++ [a]) a.id rest autoCreate acctType commodityId
            fresh (k + 1)
        else
          .error .unmappedAccount

/-- Does every segment of the path resolve to an existing child, starting
from `cur`?  (The pure existence test behind §4.3's missing-segment case.) -/
def pathResolvable (accounts : List Account) (cur : String) :
    List String → Bool
  | [] => true
  | seg :: rest =>
    match findChild accounts cur seg with
    | some child => pathResolvable accounts child.id rest
    | none => false

/-- Modelled from the spec: the Split Balancer for a simple two-account
posting (§4.4) — the source split carries the literal signed amount, the
destination split its exact negation, both in the transaction's commodity
denominator. -/
def buildSplits (sourceId destId : String) (amount : RationalAmount)
    (srcSplitId dstSplitId : String) : List Split :=
  [⟨srcSplitId, sourceId, amount⟩, ⟨dstSplitId, destId, amount.negate⟩]

/-- Modelled from the spec: the zero-sum test on a split set (§4.4, §8) —
every amount is expressed in the transaction's denominator and the
numerators sum to exactly zero. -/
def splitsBalanced (splits : List Split) (denom : Int) : Bool :=
  splits.all (fun s => s.amount.denom == denom)
    && (splits.map (fun s => s.amount.num)).sum == 0

/-- Modelled from the spec: the normalized transaction record the core
consumes (§6) — date, decimal amount with currency, description, category
path and source-account path. -/
structure NormalizedTransaction where
  date : String
  amount : DecimalAmount
  currency : String
  description : String
  category : List String
  sourceAccount : List String
deriving DecidableEq

/-- Modelled from the spec: the success payload of `commit` (§4.6, §6) —
transaction identifier plus split identifiers. -/
structure CommitResult where
  transactionId : String
  splitIds : List String
deriving DecidableEq

/-- Modelled from the spec: `commit(normalized_transaction)` (§4.6), the
only public entry point — resolve source and destination accounts (§4.3),
build balanced splits (§4.4), generate identifiers for the transaction and
each split (§4.1, via the `fresh` stream with draw counter `k`), reject a
split set that fails the zero-sum check before it reaches storage (§4.4),
assemble the record and append it to the book.  The whole step is one value:
on any error the book is not returned, so storage is untouched. -/
def commit (book : Book) (nt : NormalizedTransaction) (commodityId : String)
    (denominator : Int) (autoCreate : Bool) (srcType dstType : String)
    (fresh : Nat → String) (k : Nat) :
    Except CommitError (Book × CommitResult × Nat) :=
  match fromDecimal nt.amount denominator with
  | .error e => .error e
  | .ok amount =>
    match resolveWalk book.accounts book.rootAccountId nt.sourceAccount
        autoCreate srcType commodityId fresh k with
    | .error e => .error e
    | .ok (srcId, accounts1, k1) =>
      match resolveWalk accounts1 book.rootAccountId nt.category autoCreate
          dstType commodityId fresh k1 with
      | .error e => .error e
      | .ok (dstId, accounts2, k2) =>
        let txnId := fresh k2
        let srcSplitId := fresh (k2 + 1)
        let dstSplitId := fresh (k2 + 2)
        let splits := buildSplits srcId dstId amount srcSplitId dstSplitId
        if 2 ≤ splits.length && splitsBalanced splits denominator then
          .ok ({ book with
                 accounts := accounts2
                 transactions := book.transactions ++
                   [{ id := txnId, date := nt.date,
                      description := nt.description,
                      commodityId := commodityId, denom := denominator,
                      splits := splits }] },
               ⟨txnId, [srcSplitId, dstSplitId]⟩, k2 + 3)
        else
          .error .imbalancedTransactionError

/-- Modelled from the spec: one write request submitted to the
Write-Serialization Queue (§4.5) — a fully-formed commit of one normalized
transaction. -/
structure WriteRequest where
  nt : NormalizedTransaction
  commodityId : String
  denominator : Int
  autoCreate : Bool
  srcType : String
  dstType : String
deriving DecidableEq

/-- Modelled from the spec: applying one request's storage operations as one
all-or-nothing unit (§4.5): the commit either yields the fully updated book
or an error with no book. -/
def applyRequest (fresh : Nat → String) (book : Book) (k : Nat)
    (r : WriteRequest) : Except CommitError (Book × CommitResult × Nat) :=
  commit book r.nt r.commodityId r.denominator r.autoCreate r.srcType r.dstType
    fresh k

/-- Modelled from the spec: the effect of one drained request on the worker's
state — on success the new book (the database transaction committed), on
failure the old book unchanged (rolled back in full, §4.5). -/
def queueStep (fresh : Nat → String) : Book × Nat → WriteRequest → Book × Nat :=
  fun s r =>
    match applyRequest fresh s.1 s.2 r with
    | .ok (b', _, k') => (b', k')
    | .error _ => (s.1, s.2)

/-- Modelled from the spec: the single queue worker (§4.5) draining the
pending requests strictly in arrival order — process the head inside one
all-or-nothing step, deliver its result, continue with the rest (a failure
leaves the book untouched and the queue continues unaffected).  Returns the
final book, the final identifier-draw counter and the per-request results in
arrival order. -/
def runQueue (fresh : Nat → String) (book : Book) (k : Nat) :
    List WriteRequest → Book × Nat × List (Except CommitError CommitResult)
  | [] => (book, k, [])
  | r :: rs =>
    match applyRequest fresh book k r with
    | .ok (b', res, k') =>
        let out := runQueue fresh b' k' rs
        (out.1, out.2.1, .ok res :: out.2.2)
    | .error e =>
        let out := runQueue fresh book k rs
        (out.1, out.2.1, .error e :: out.2.2)

/-- The identifier of the statement row a hash lookup returns (the
projection of `GetStatementByHash` that duplicate handling reads). -/
def findIdByHash (l : List StatementRow) (fileHash : String) : Option String :=
  (l.find? (fun r => r.fileHash == fileHash)).map (fun r => r.id)

/-! ## Invariants, reachability relations and concrete example inputs -/

/-- Every statement row carries one of the four schema statuses. -/
def statusInvariant (db : MetaDB) : Prop :=
  ∀ r ∈ db.statements, r.status ∈ validStatuses

/-- One mutation of the metadata database, as reachable through the store
API: `CreateStatement`, `UpdateStatus` (covering `MarkProcessing`),
`MarkProcessed`, `MarkFailed`, `InsertTransactionRaw`, `InsertLogEntry`. -/
inductive MetaStep : MetaDB → MetaDB → Prop
  | create (db : MetaDB) (entropy : List Nat)
      (now filename fileHash : String) (fileSize : Int)
      (mimeType accountType accountName statementDate : String)
      (db' : MetaDB) (id : String)
      (h : createStatement db entropy now filename fileHash fileSize mimeType
        accountType accountName statementDate = .ok (db', id)) :
      MetaStep db db'
  | setStatus (db : MetaDB) (id status : String) (db' : MetaDB)
      (h : updateStatus db id status = .ok db') : MetaStep db db'
  | processed (db : MetaDB) (id : String) (n : Int) (now : String) :
      MetaStep db (markProcessed db id n now)
  | failed (db : MetaDB) (id msg now : String) :
      MetaStep db (markFailed db id msg now)
  | insertRaw (db : MetaDB) (entropy : List Nat)
      (statementId : String) (rowIndex : Int) (headers rawData now : String)
      (db' : MetaDB) (id : String)
      (h : insertTransactionRaw db entropy statementId rowIndex headers rawData
        now = .ok (db', id)) : MetaStep db db'
  | insertLog (db : MetaDB) (statementId level stage message now : String)
      (db' : MetaDB)
      (h : insertLogEntry db statementId level stage message now = .ok db') :
      MetaStep db db'

/-- Modelled from the spec: the transaction invariant of §3 — at least two
splits, and the splits' amounts, normalized to the transaction's commodity
denominator, sum to exactly zero. -/
def balancedBook (b : Book) : Prop :=
  ∀ t ∈ b.transactions, 2 ≤ t.splits.length ∧ splitsBalanced t.splits t.denom = true

/-- Modelled from the spec: one successful `commit` of the Ledger Writer
(§4.6), the only operation that ever adds transactions to the book. -/
inductive CommitStep : Book → Book → Prop
  | mk (b : Book) (nt : NormalizedTransaction) (commodityId : String)
      (denominator : Int) (autoCreate : Bool) (srcType dstType : String)
      (fresh : Nat → String) (k : Nat) (b' : Book) (res : CommitResult) (k' : Nat)
      (h : commit b nt commodityId denominator autoCreate srcType dstType fresh k
        = .ok (b', res, k')) : CommitStep b b'

/-- A filesystem with one read-only regular file at the GnuCash path. -/
def readOnlyFS : String → Option FileStat :=
  fun p => if p == "/data/finance.gnucash" then some ⟨true, false⟩ else none

/-- A deterministic environment for concrete runs of the processor: CSV-free
PDF uploads, extraction succeeding with no tables, no injected driver
errors, UUID entropy distinct per draw. -/
def exEnv : ProcEnv :=
  { detect := fun _ => "application/octet-stream"
    hash := fun _ => "sha256-of-upload"
    marshal := fun _ => "[]"
    extract := fun _ _ _ => .ok []
    uuidEntropy := fun n => List.replicate 15 0 ++ [n % 256]
    rawInsertErr := fun _ => none
    now := "2026-01-01T00:00:00Z" }

/-- `exEnv` with the extraction service down. -/
def exEnvExtractFail : ProcEnv :=
  { exEnv with extract := fun _ _ _ => .error "kreuzberg returned status 503" }

/-- `exEnv` where extraction finds one two-row table and the second raw
insert hits a driver error (Scenario-D-style injected storage failure in
the middle of the row loop: row 0 is stored, row 1 fails). -/
def exEnvStorageFail : ProcEnv :=
  { exEnv with
    extract := fun _ _ _ => .ok
      [⟨[⟨["date", "amount"],
          [["2026-01-01", "10.50"], ["2026-01-02", "3.25"]]⟩]⟩]
    rawInsertErr := fun k => if k == 1 then some "database is locked" else none }

/-- The initial processor state: fresh metadata database, zero draws. -/
def initialState : ProcState := ⟨MetaDB.empty, 0, 0, 0⟩

/-- The first concrete upload of `pdfMagic` through `exEnv`. -/
def exRun1 : ProcState × Except String ProcessResult :=
  process exEnv 1 ["application/pdf"] "a.pdf" pdfMagic "checking" "acct" "2026-01" initialState

/-- The `ProcessResult` of the first concrete upload. -/
def exResult1 : ProcessResult :=
  { statementID := newUUIDString (exEnv.uuidEntropy 0), filename := "a.pdf",
    status := "processed", transactionsExtracted := 0, duplicate := false }

/-- Modelled from the spec: a bootstrap book — a bare root account, no
transactions (§3 lifecycle). -/
def bootstrapBook : Book :=
  { rootAccountId := "root", accounts := [⟨"root", "Root", none, "ROOT", "USD"⟩],
    transactions := [] }

/-- A deterministic identifier stream for concrete ledger runs. -/
def exFresh : Nat → String := fun n => "guid" ++ toString n

/-- Scenario A's normalized transaction: −10.50 USD from Assets:Checking to
Expenses:Dining. -/
def exNT : NormalizedTransaction :=
  { date := "2026-01-02", amount := ⟨-1050, 2⟩, currency := "USD",
    description := "dinner", category := ["Expenses", "Dining"],
    sourceAccount := ["Assets", "Checking"] }

/-- Scenario A's commit against the bootstrap book. -/
def exCommit : Except CommitError (Book × CommitResult × Nat) :=
  commit bootstrapBook exNT "USD" 100 true "ASSET" "EXPENSE" exFresh 0

/-- The book after Scenario A's commit (the bootstrap book when the commit
fails, which the theorems rule out). -/
def exBook1 : Book :=
  match exCommit with
  | .ok (b, _, _) => b
  | .error _ => bootstrapBook

/-- The metadata database after one concrete `CreateStatement` on the empty
database. -/
def dbAfterCreate : MetaDB :=
  match createStatement MetaDB.empty (List.replicate 16 0) "2026-01-01T00:00:00Z"
      "a.pdf" "sha256-of-upload" 5 "application/pdf" "checking" "acct" "2026-01" with
  | .ok (db, _) => db
  | .error _ => MetaDB.empty

/-- Scenario A as a queue request. -/
def exReq1 : WriteRequest := ⟨exNT, "USD", 100, true, "ASSET", "EXPENSE"⟩

/-- Scenario E as a queue request (imprecise decimal, so the commit fails). -/
def exReq2 : WriteRequest :=
  ⟨{ exNT with amount := ⟨10505, 3⟩ }, "USD", 100, true, "ASSET", "EXPENSE"⟩

/-- Scenario B as a queue request: unmapped category with auto-create off. -/
def exReqUnmapped : WriteRequest :=
  ⟨{ exNT with category := ["Unmapped", "Category"] }, "USD", 100, false,
   "ASSET", "EXPENSE"⟩

/-- Two write requests for the concrete queue run: a successful commit
followed by a failing one. -/
def exRequests : List WriteRequest := [exReq1, exReq2]

/-! ## Helper lemmas on the identifier encoding -/

theorem hexDigit_lowerHex : ∀ n < 16, isLowerHexChar (hexDigit n) = true := by
  decide

theorem hexDigit_inj : ∀ m < 16, ∀ n < 16, hexDigit m = hexDigit n → m = n := by
  decide

theorem hexPair_inj {b c : Nat} (hb : b < 256) (hc : c < 256)
    (h1 : hexDigit (b / 16) = hexDigit (c / 16))
    (h2 : hexDigit (b % 16) = hexDigit (c % 16)) : b = c := by
  have e1 := hexDigit_inj (b / 16) (by omega) (c / 16) (by omega) h1
  have e2 := hexDigit_inj (b % 16) (by omega) (c % 16) (by omega) h2
  omega

theorem flatten_byteHex_length (l : List Nat) :
    ((l.map byteHex).flatten).length = 2 * l.length := by
  induction l with
  | nil => simp
  | cons b t ih => simp [byteHex, ih]; omega

theorem mem_flatten_byteHex {l : List Nat} (hl : ∀ b ∈ l, b < 256) :
    ∀ c ∈ (l.map byteHex).flatten, isLowerHexChar c = true := by
  induction l with
  | nil => simp
  | cons b t ih =>
      intro c hc
      have hb : b < 256 := hl b (by simp)
      simp only [List.map_cons, List.flatten_cons, List.mem_append, byteHex,
        List.mem_cons, List.not_mem_nil, or_false] at hc
      rcases hc with (rfl | rfl) | hc
      · exact hexDigit_lowerHex _ (by omega)
      · exact hexDigit_lowerHex _ (by omega)
      · exact ih (fun x hx => hl x (by simp [hx])) c hc

theorem flatten_byteHex_inj :
    ∀ (l l' : List Nat), l.length = l'.length →
      (∀ b ∈ l, b < 256) → (∀ b ∈ l', b < 256) →
      (l.map byteHex).flatten = (l'.map byteHex).flatten → l = l'
  | [], [], _, _, _, _ => rfl
  | b :: t, b' :: t', hlen, hb, hb', heq => by
      simp only [List.map_cons, List.flatten_cons, byteHex, List.cons_append,
        List.nil_append, List.cons.injEq] at heq
      obtain ⟨h1, h2, h3⟩ := heq
      have hbb : b = b' :=
        hexPair_inj (hb b (by simp)) (hb' b' (by simp)) h1 h2
      have ht : t = t' :=
        flatten_byteHex_inj t t' (by simpa using hlen)
          (fun x hx => hb x (by simp [hx])) (fun x hx => hb' x (by simp [hx])) h3
      rw [hbb, ht]

theorem setVersion4_length (e : List Nat) : (setVersion4 e).length = e.length := by
  simp [setVersion4]

theorem setVersion4_bytes {e : List Nat} (he : ∀ b ∈ e, b < 256) :
    ∀ b ∈ setVersion4 e, b < 256 := by
  intro b hb
  simp only [setVersion4] at hb
  rcases List.mem_or_eq_of_mem_set hb with hb1 | rfl
  · rcases List.mem_or_eq_of_mem_set hb1 with hb2 | rfl
    · exact he _ hb2
    · omega
  · omega

theorem newUUIDString_length {e : List Nat} (he : e.length = 16) :
    (newUUIDString e).length = 36 := by
  have hm : (setVersion4 e).length = 16 := by rw [setVersion4_length, he]
  show (uuidStringOfBytes (setVersion4 e)).data.length = 36
  simp only [uuidStringOfBytes, List.length_append, flatten_byteHex_length,
    List.length_take, List.length_drop, List.length_singleton, hm]
  omega

theorem newUUIDString_chars {e : List Nat} (he : ∀ b ∈ e, b < 256) :
    ∀ c ∈ (newUUIDString e).data, isLowerHexChar c = true ∨ c = '-' := by
  have hm := setVersion4_bytes he
  intro c hc
  simp only [newUUIDString, uuidStringOfBytes, List.mem_append,
    List.mem_singleton] at hc
  rcases hc with ((((((((h | rfl) | h) | rfl) | h) | rfl) | h) | rfl) | h)
  · exact Or.inl (mem_flatten_byteHex
      (fun x hx => hm x (List.mem_of_mem_take hx)) c h)
  · exact Or.inr rfl
  · exact Or.inl (mem_flatten_byteHex
      (fun x hx => hm x (List.mem_of_mem_drop (List.mem_of_mem_take hx))) c h)
  · exact Or.inr rfl
  · exact Or.inl (mem_flatten_byteHex
      (fun x hx => hm x (List.mem_of_mem_drop (List.mem_of_mem_take hx))) c h)
  · exact Or.inr rfl
  · exact Or.inl (mem_flatten_byteHex
      (fun x hx => hm x (List.mem_of_mem_drop (List.mem_of_mem_take hx))) c h)
  · exact Or.inr rfl
  · exact Or.inl (mem_flatten_byteHex
      (fun x hx => hm x (List.mem_of_mem_drop hx)) c h)

theorem take_drop_decomposition (x : List Nat) :
    x.take 4 ++ ((x.drop 4).take 2 ++ ((x.drop 6).take 2 ++
      ((x.drop 8).take 2 ++ x.drop 10))) = x := by
  rw [show (x.drop 8).take 2 ++ x.drop 10 = x.drop 8 by
        have h := List.take_append_drop 2 (x.drop 8)
        simpa [List.drop_drop] using h]
  rw [show (x.drop 6).take 2 ++ x.drop 8 = x.drop 6 by
        have h := List.take_append_drop 2 (x.drop 6)
        simpa [List.drop_drop] using h]
  rw [show (x.drop 4).take 2 ++ x.drop 6 = x.drop 4 by
        have h := List.take_append_drop 2 (x.drop 4)
        simpa [List.drop_drop] using h]
  exact List.take_append_drop 4 x

theorem uuidStringOfBytes_inj {m m' : List Nat}
    (hm : m.length = 16) (hm' : m'.length = 16)
    (hb : ∀ b ∈ m, b < 256) (hb' : ∀ b ∈ m', b < 256)
    (h : uuidStringOfBytes m = uuidStringOfBytes m') : m = m' := by
  simp only [uuidStringOfBytes] at h
  replace h := congrArg String.data h
  simp only [String.data] at h
  obtain ⟨h, h5⟩ := List.append_inj' h
    (by simp only [flatten_byteHex_length, List.length_drop, hm, hm'])
  obtain ⟨h, -⟩ := List.append_inj' h rfl
  obtain ⟨h, h4⟩ := List.append_inj' h
    (by simp only [flatten_byteHex_length, List.length_take, List.length_drop, hm, hm'])
  obtain ⟨h, -⟩ := List.append_inj' h rfl
  obtain ⟨h, h3⟩ := List.append_inj' h
    (by simp only [flatten_byteHex_length, List.length_take, List.length_drop, hm, hm'])
  obtain ⟨h, -⟩ := List.append_inj' h rfl
  obtain ⟨h1, h2⟩ := List.append_inj' h
    (by simp only [flatten_byteHex_length, List.length_take, List.length_drop, hm, hm'])
  obtain ⟨h1, -⟩ := List.append_inj' h1 rfl
  have e1 : m.take 4 = m'.take 4 :=
    flatten_byteHex_inj _ _ (by simp [hm, hm'])
      (fun x hx => hb x (List.mem_of_mem_take hx))
      (fun x hx => hb' x (List.mem_of_mem_take hx)) h1
  have e2 : (m.drop 4).take 2 = (m'.drop 4).take 2 :=
    flatten_byteHex_inj _ _ (by simp [hm, hm'])
      (fun x hx => hb x (List.mem_of_mem_drop (List.mem_of_mem_take hx)))
      (fun x hx => hb' x (List.mem_of_mem_drop (List.mem_of_mem_take hx))) h2
  have e3 : (m.drop 6).take 2 = (m'.drop 6).take 2 :=
    flatten_byteHex_inj _ _ (by simp [hm, hm'])
      (fun x hx => hb x (List.mem_of_mem_drop (List.mem_of_mem_take hx)))
      (fun x hx => hb' x (List.mem_of_mem_drop (List.mem_of_mem_take hx))) h3
  have e4 : (m.drop 8).take 2 = (m'.drop 8).take 2 :=
    flatten_byteHex_inj _ _ (by simp [hm, hm'])
      (fun x hx => hb x (List.mem_of_mem_drop (List.mem_of_mem_take hx)))
      (fun x hx => hb' x (List.mem_of_mem_drop (List.mem_of_mem_take hx))) h4
  have e5 : m.drop 10 = m'.drop 10 :=
    flatten_byteHex_inj _ _ (by simp [hm, hm'])
      (fun x hx => hb x (List.mem_of_mem_drop hx))
      (fun x hx => hb' x (List.mem_of_mem_drop hx)) h5
  calc m = m.take 4 ++ ((m.drop 4).take 2 ++ ((m.drop 6).take 2 ++
            ((m.drop 8).take 2 ++ m.drop 10))) := (take_drop_decomposition m).symm
    _ = m'.take 4 ++ ((m'.drop 4).take 2 ++ ((m'.drop 6).take 2 ++
            ((m'.drop 8).take 2 ++ m'.drop 10))) := by rw [e1, e2, e3, e4, e5]
    _ = m' := take_drop_decomposition m'

/-! ## Claim theorems -/

/-- C2, counterexample: the identifier that `CreateStatement` actually
generates and persists (via `uuid.New().String()`) is not a 32-character
lowercase-hex string — on the all-zero entropy draw it is the 36-character
hyphenated `00000000-0000-4000-8000-000000000000`. -/
theorem createStatement_id_not_spec_format :
    ((createStatement MetaDB.empty (List.replicate 16 0) "2026-01-01T00:00:00Z"
        "a.pdf" "sha256-of-upload" 5 "application/pdf" "checking" "acct"
        "2026-01").toOption.map (fun p => isSpecIdentifier p.2)) = some false := by
  decide

/-- C2 (amended): every identifier the system generates and persists (for
statement rows and raw-transaction rows) is a 36-character hyphenated UUID
string — lowercase hexadecimal digits in 8-4-4-4-12 groups separated by
hyphens, hence never the 32-character bare-hex format — and two draws
produce the same identifier only when their 128 random bits agree after the
version/variant masking, so identifiers are statistically unique. -/
theorem generated_identifier_format (e : List Nat) (hlen : e.length = 16)
    (hbytes : ∀ b ∈ e, b < 256) :
    (newUUIDString e).length = 36
    ∧ (∀ c ∈ (newUUIDString e).data, isLowerHexChar c = true ∨ c = '-')
    ∧ isSpecIdentifier (newUUIDString e) = false
    ∧ ∀ e', e'.length = 16 → (∀ b ∈ e', b < 256) →
        newUUIDString e = newUUIDString e' → setVersion4 e = setVersion4 e' := by
  refine ⟨newUUIDString_length hlen, newUUIDString_chars hbytes, ?_, ?_⟩
  · simp [isSpecIdentifier, newUUIDString_length hlen]
  · intro e' hlen' hbytes' h
    exact uuidStringOfBytes_inj (by simp [setVersion4_length, hlen])
      (by simp [setVersion4_length, hlen'])
      (setVersion4_bytes hbytes) (setVersion4_bytes hbytes') h

/-- C2, witness: the format theorem evaluated on the all-zero entropy draw. -/
theorem generated_identifier_format_witness :
    (newUUIDString (List.replicate 16 0)).length = 36
    ∧ isSpecIdentifier (newUUIDString (List.replicate 16 0)) = false
    ∧ setVersion4 (List.replicate 16 0) = setVersion4 (List.replicate 16 0) := by
  obtain ⟨h1, -, h3, h4⟩ :=
    generated_identifier_format (List.replicate 16 0) (by decide) (by decide)
  exact ⟨h1, h3, h4 _ (by decide) (by decide) rfl⟩

/-- C6, counterexample: with the GnuCash ledger file present as a regular
file but not writable, the health response still reports
`gnucash_db_writable = true` — the field does not track "present and
writable". -/
theorem health_writable_counterexample :
    (healthResponse true true readOnlyFS "/data/finance.gnucash").gnuCashDBWritable
        = true
    ∧ presentAndWritable readOnlyFS "/data/finance.gnucash" = false := by
  decide

/-- C6 (amended): the `gnucash_db_writable` field of the `/health` response
is true iff the ledger database path resolves (`os.Stat` succeeds) to a
regular file; write permission is never consulted. -/
theorem health_gnucash_field_iff (kreuzbergOK metadataOK : Bool)
    (fs : String → Option FileStat) (path : String) :
    (healthResponse kreuzbergOK metadataOK fs path).gnuCashDBWritable = true ↔
      ∃ info, fs path = some info ∧ info.isRegular = true := by
  show isWritable fs path = true ↔ _
  unfold isWritable
  cases h : fs path with
  | none => simp
  | some info => simp

/-- C7: `from_decimal` fails with `PrecisionError` exactly on inputs whose
fractional precision the denominator cannot represent (the scaled value is
not an integer), in which case a commit through the write queue leaves the
book untouched; on representable inputs it returns the exact integer
numerator. -/
theorem fromDecimal_spec :
    (∀ (d : DecimalAmount) (denominator : Int),
        ¬ ((10 : Int) ^ d.scale ∣ d.mantissa * denominator) →
          fromDecimal d denominator = .error .precisionError)
    ∧ (∀ (d : DecimalAmount) (denominator : Int),
        (10 : Int) ^ d.scale ∣ d.mantissa * denominator →
          ∃ n, fromDecimal d denominator = .ok ⟨n, denominator⟩
            ∧ n * (10 : Int) ^ d.scale = d.mantissa * denominator)
    ∧ (∀ (fresh : Nat → String) (book : Book) (k : Nat) (r : WriteRequest),
        ¬ ((10 : Int) ^ r.nt.amount.scale ∣ r.nt.amount.mantissa * r.denominator) →
          applyRequest fresh book k r = .error .precisionError
          ∧ queueStep fresh (book, k) r = (book, k)) := by
  have herr : ∀ (d : DecimalAmount) (denominator : Int),
      ¬ ((10 : Int) ^ d.scale ∣ d.mantissa * denominator) →
        fromDecimal d denominator = .error .precisionError := by
    intro d denominator h
    unfold fromDecimal
    rw [if_neg]
    exact fun hc => h (Int.dvd_of_emod_eq_zero hc)
  refine ⟨herr, ?_, ?_⟩
  · intro d denominator h
    refine ⟨d.mantissa * denominator / (10 : Int) ^ d.scale, ?_, ?_⟩
    · unfold fromDecimal
      rw [if_pos (Int.emod_eq_zero_of_dvd h)]
    · exact Int.ediv_mul_cancel h
  · intro fresh book k r h
    have hc : commit book r.nt r.commodityId r.denominator r.autoCreate
        r.srcType r.dstType fresh k = .error .precisionError := by
      unfold commit
      rw [herr r.nt.amount r.denominator h]
    constructor
    · unfold applyRequest
      rw [hc]
    · unfold queueStep applyRequest
      rw [hc]

/-- C7, witness: Scenario E (`10.505` against denominator 100 fails before
touching storage) and the exact case (`10.50` gives numerator 1050). -/
theorem fromDecimal_spec_witness :
    fromDecimal ⟨10505, 3⟩ 100 = .error .precisionError
    ∧ (∃ n, fromDecimal ⟨1050, 2⟩ 100 = .ok ⟨n, 100⟩
        ∧ n * (10 : Int) ^ 2 = 1050 * 100)
    ∧ queueStep exFresh (bootstrapBook, 0)
        ⟨{ exNT with amount := ⟨10505, 3⟩ }, "USD", 100, true, "ASSET", "EXPENSE"⟩
        = (bootstrapBook, 0) :=
  ⟨fromDecimal_spec.1 ⟨10505, 3⟩ 100 (by decide),
   fromDecimal_spec.2.1 ⟨1050, 2⟩ 100 (by decide),
   (fromDecimal_spec.2.2 exFresh bootstrapBook 0 _ (by decide)).2⟩

/-- C9, counterexample: a request beginning with the PDF magic bytes whose
size exceeds the limit is rejected even though `application/pdf` is allowed
— the PDF half of the claim needs the size precondition. -/
theorem validateFile_large_pdf_rejected :
    validateFile (fun _ => "application/octet-stream")
        (pdfMagic ++ List.replicate 1048576 0) 1 ["application/pdf"]
      ≠ .ok "application/pdf" := by
  have h : (pdfMagic ++ List.replicate 1048576 0).length = 1048581 := by
    rw [List.length_append, List.length_replicate]
    norm_num [pdfMagic]
  unfold validateFile
  rw [if_pos (by rw [h]; norm_num)]
  exact fun hc => Except.noConfusion hc

/-- C9 (amended): `ValidateFile` errors on empty or over-limit data; and a
within-limit input starting with `"%PDF-"` is accepted as
`application/pdf` whenever that type is allowed. -/
theorem validateFile_spec (detect : List Nat → String) (data : List Nat)
    (maxSizeMB : Int) (allowedTypes : List String) :
    ((data = [] ∨ (data.length : Int) > maxSizeMB * 1024 * 1024) →
      ∃ e, validateFile detect data maxSizeMB allowedTypes = .error e)
    ∧ (data.take 5 = pdfMagic →
        (data.length : Int) ≤ maxSizeMB * 1024 * 1024 →
        "application/pdf" ∈ allowedTypes →
        validateFile detect data maxSizeMB allowedTypes = .ok "application/pdf") := by
  constructor
  · intro hbad
    by_cases hsz : (data.length : Int) > maxSizeMB * 1024 * 1024
    · exact ⟨_, by unfold validateFile; rw [if_pos hsz]⟩
    · have hempty : data = [] := by
        rcases hbad with h | h
        · exact h
        · exact absurd h hsz
      subst hempty
      have hsz' : ¬ maxSizeMB * 1024 * 1024 < 0 := by simpa using hsz
      exact ⟨"file is empty", by simp [validateFile, hsz']⟩
  · intro hpdf hsz hallow
    have hlen5 : 5 ≤ data.length := by
      have := congrArg List.length hpdf
      simp [pdfMagic] at this
      omega
    unfold validateFile
    rw [if_neg (by omega), if_neg (by omega)]
    have hmagic : (5 ≤ data.length && data.take 5 == pdfMagic) = true := by
      simp [hlen5, hpdf]
    simp only [hmagic, if_true]
    rw [if_pos (by simpa using hallow)]

/-- C9, witness: the empty upload is rejected; the five magic bytes alone
are accepted as a PDF under a 1 MB limit. -/
theorem validateFile_spec_witness :
    (∃ e, validateFile (fun _ => "application/octet-stream") [] 1
        ["application/pdf"] = .error e)
    ∧ validateFile (fun _ => "application/octet-stream") pdfMagic 1
        ["application/pdf"] = .ok "application/pdf" :=
  ⟨(validateFile_spec _ [] 1 _).1 (Or.inl rfl),
   (validateFile_spec _ pdfMagic 1 _).2 (by decide) (by decide) (by decide)⟩

theorem statusInvariant_step {a b : MetaDB} (h : MetaStep a b)
    (ha : statusInvariant a) : statusInvariant b := by
  cases h with
  | create entropy now filename fileHash fileSize mimeType accountType
      accountName statementDate db' newId hc =>
      unfold createStatement at hc
      split at hc
      · exact absurd hc (by simp)
      split at hc
      · exact absurd hc (by simp)
      obtain ⟨hdb, -⟩ := by simpa using hc
      intro r hr
      rw [← hdb] at hr
      rcases List.mem_append.mp hr with h' | h'
      · exact ha r h'
      · simp only [List.mem_singleton] at h'
        subst h'
        simp [validStatuses]
  | setStatus sid status db' h =>
      unfold updateStatus at h
      split at h
      case isFalse => exact absurd h (by simp)
      case isTrue hvalid =>
        obtain hdb := by simpa using h
        intro r hr
        rw [← hdb] at hr
        simp only [updateRow, List.mem_map] at hr
        obtain ⟨r0, hr0, hre⟩ := hr
        by_cases hid : (r0.id == sid) = true
        · rw [if_pos hid] at hre
          subst hre
          simpa [validStatuses] using hvalid
        · rw [if_neg hid] at hre
          subst hre
          exact ha r0 hr0
  | processed sid n now =>
      intro r hr
      simp only [markProcessed, updateRow, List.mem_map] at hr
      obtain ⟨r0, hr0, hre⟩ := hr
      by_cases hid : (r0.id == sid) = true
      · rw [if_pos hid] at hre
        subst hre
        simp [validStatuses]
      · rw [if_neg hid] at hre
        subst hre
        exact ha r0 hr0
  | failed sid msg now =>
      intro r hr
      simp only [markFailed, updateRow, List.mem_map] at hr
      obtain ⟨r0, hr0, hre⟩ := hr
      by_cases hid : (r0.id == sid) = true
      · rw [if_pos hid] at hre
        subst hre
        simp [validStatuses]
      · rw [if_neg hid] at hre
        subst hre
        exact ha r0 hr0
  | insertRaw entropy statementId rowIndex headers rawData now db' newId h =>
      unfold insertTransactionRaw at h
      split at h
      · exact absurd h (by simp)
      split at h
      · exact absurd h (by simp)
      obtain ⟨hdb, -⟩ := by simpa using h
      intro r hr
      rw [← hdb] at hr
      exact ha r hr
  | insertLog statementId level stage message now db' h =>
      unfold insertLogEntry at h
      split at h
      case isTrue =>
        obtain hdb := by simpa using h
        intro r hr
        rw [← hdb] at hr
        exact ha r hr
      case isFalse => exact absurd h (by simp)

/-- C10: starting from the freshly migrated database, every state reachable
through the store's mutations (`CreateStatement`, `UpdateStatus`,
`MarkProcessed`, `MarkFailed`, `InsertTransactionRaw`, `InsertLogEntry`)
satisfies the schema's status invariant: each statement row's status is one
of `pending`, `processing`, `processed`, `failed`. -/
theorem statement_status_invariant (db : MetaDB)
    (h : Relation.ReflTransGen MetaStep MetaDB.empty db) : statusInvariant db := by
  induction h with
  | refl => intro r hr; cases hr
  | tail _ hstep ih => exact statusInvariant_step hstep ih

/-- C10, witness: the invariant holds after one concrete `CreateStatement`
on the empty database. -/
theorem statement_status_invariant_witness : statusInvariant dbAfterCreate := by
  apply statement_status_invariant
  refine Relation.ReflTransGen.single
    (MetaStep.create MetaDB.empty (List.replicate 16 0) "2026-01-01T00:00:00Z"
      "a.pdf" "sha256-of-upload" 5 "application/pdf" "checking" "acct" "2026-01"
      dbAfterCreate (newUUIDString (List.replicate 16 0)) ?_)
  decide

theorem commit_ok_shape
    {book : Book} {nt : NormalizedTransaction} {commodityId : String}
    {denominator : Int} {autoCreate : Bool} {srcType dstType : String}
    {fresh : Nat → String} {k : Nat} {b' : Book} {res : CommitResult} {k' : Nat}
    (hc : commit book nt commodityId denominator autoCreate srcType dstType
      fresh k = .ok (b', res, k')) :
    ∃ accounts2 txn,
      b' = { book with accounts := accounts2
                       transactions := book.transactions ++ [txn] }
      ∧ 2 ≤ txn.splits.length ∧ splitsBalanced txn.splits txn.denom = true := by
  unfold commit at hc
  cases hfd : fromDecimal nt.amount denominator with
  | error e => rw [hfd] at hc; exact absurd hc (by simp)
  | ok amount =>
    rw [hfd] at hc
    dsimp only at hc
    cases hr1 : resolveWalk book.accounts book.rootAccountId nt.sourceAccount
        autoCreate srcType commodityId fresh k with
    | error e => rw [hr1] at hc; exact absurd hc (by simp)
    | ok v1 =>
      obtain ⟨srcId, accounts1, k1⟩ := v1
      rw [hr1] at hc
      dsimp only at hc
      cases hr2 : resolveWalk accounts1 book.rootAccountId nt.category
          autoCreate dstType commodityId fresh k1 with
      | error e => rw [hr2] at hc; exact absurd hc (by simp)
      | ok v2 =>
        obtain ⟨dstId, accounts2, k2⟩ := v2
        rw [hr2] at hc
        dsimp only at hc
        split at hc
        case isTrue hgate =>
          obtain ⟨hb', -⟩ := by simpa using hc
          refine ⟨accounts2, _, hb'.symm, ?_, ?_⟩
          · simpa using (Bool.and_eq_true_iff.mp hgate).1
          · exact (Bool.and_eq_true_iff.mp hgate).2
        case isFalse => exact absurd hc (by simp)

/-- C1: in every book reachable from a balanced book through successful
`commit` operations of the Ledger Writer, each committed transaction has at
least two splits, and the splits' amounts, normalized to the transaction's
commodity denominator, sum to exactly zero. -/
theorem committed_transactions_balanced (b0 b : Book) (h0 : balancedBook b0)
    (h : Relation.ReflTransGen CommitStep b0 b) : balancedBook b := by
  induction h with
  | refl => exact h0
  | tail _ hstep ih =>
      cases hstep with
      | mk nt commodityId denominator autoCreate srcType dstType fresh k
          b' res k' hc =>
        obtain ⟨accounts2, txn, rfl, h2, hbal⟩ := commit_ok_shape hc
        intro t ht
        rcases List.mem_append.mp ht with h' | h'
        · exact ih t h'
        · simp only [List.mem_singleton] at h'
          subst h'
          exact ⟨h2, hbal⟩

/-- C1, witness: the book after Scenario A's concrete commit is balanced. -/
theorem committed_transactions_balanced_witness : balancedBook exBook1 := by
  apply committed_transactions_balanced bootstrapBook exBook1
  · intro t ht
    cases ht
  · refine Relation.ReflTransGen.single
      (CommitStep.mk bootstrapBook exNT "USD" 100 true "ASSET" "EXPENSE"
        exFresh 0 exBook1 ⟨"guid4", ["guid5", "guid6"]⟩ 7 ?_)
    decide

theorem resolveWalk_noAuto_fail :
    ∀ (segs : List String) (accounts : List Account) (cur : String)
      (acctType commodityId : String) (fresh : Nat → String) (k : Nat),
      pathResolvable accounts cur segs = false →
      resolveWalk accounts cur segs false acctType commodityId fresh k
        = .error .unmappedAccount := by
  intro segs
  induction segs with
  | nil => intro accounts cur acctType commodityId fresh k h; simp [pathResolvable] at h
  | cons seg rest ih =>
      intro accounts cur acctType commodityId fresh k h
      unfold pathResolvable at h
      unfold resolveWalk
      cases hfc : findChild accounts cur seg with
      | some child =>
          rw [hfc] at h
          dsimp only
          exact ih accounts child.id acctType commodityId fresh k h
      | none => rfl

theorem resolveWalk_noAuto_ok :
    ∀ (segs : List String) (accounts : List Account) (cur : String)
      (acctType commodityId : String) (fresh : Nat → String) (k : Nat)
      (resolvedId : String) (accounts' : List Account) (k' : Nat),
      resolveWalk accounts cur segs false acctType commodityId fresh k
        = .ok (resolvedId, accounts', k') →
      accounts' = accounts ∧ k' = k := by
  intro segs
  induction segs with
  | nil =>
      intro accounts cur acctType commodityId fresh k resolvedId accounts' k' h
      obtain ⟨-, h2, h3⟩ := by simpa [resolveWalk] using h
      exact ⟨h2.symm, h3.symm⟩
  | cons seg rest ih =>
      intro accounts cur acctType commodityId fresh k resolvedId accounts' k' h
      unfold resolveWalk at h
      cases hfc : findChild accounts cur seg with
      | some child =>
          rw [hfc] at h
          exact ih accounts child.id acctType commodityId fresh k
            resolvedId accounts' k' h
      | none => rw [hfc] at h; exact absurd h (by simp)

theorem resolveWalk_noAuto_succeeds :
    ∀ (segs : List String) (accounts : List Account) (cur : String)
      (acctType commodityId : String) (fresh : Nat → String) (k : Nat),
      pathResolvable accounts cur segs = true →
      ∃ resolvedId,
        resolveWalk accounts cur segs false acctType commodityId fresh k
          = .ok (resolvedId, accounts, k) := by
  intro segs
  induction segs with
  | nil => intro accounts cur acctType commodityId fresh k _; exact ⟨cur, rfl⟩
  | cons seg rest ih =>
      intro accounts cur acctType commodityId fresh k h
      unfold pathResolvable at h
      unfold resolveWalk
      cases hfc : findChild accounts cur seg with
      | some child =>
          rw [hfc] at h
          dsimp only
          exact ih accounts child.id acctType commodityId fresh k h
      | none => rw [hfc] at h; exact absurd h (by simp)

/-- C8: with auto-create disabled and some path segment missing, the Account
Resolver fails with `UnmappedAccount`; a successful no-auto-create
resolution never adds an account; and a commit whose source or category
path does not resolve fails with `UnmappedAccount` while the queue leaves
the book unchanged — no account row and no transaction row is created. -/
theorem resolve_unmapped_spec :
    (∀ (accounts : List Account) (cur : String) (segs : List String)
        (acctType commodityId : String) (fresh : Nat → String) (k : Nat),
        pathResolvable accounts cur segs = false →
          resolveWalk accounts cur segs false acctType commodityId fresh k
            = .error .unmappedAccount)
    ∧ (∀ (accounts : List Account) (cur : String) (segs : List String)
        (acctType commodityId : String) (fresh : Nat → String) (k : Nat)
        (resolvedId : String) (accounts' : List Account) (k' : Nat),
        resolveWalk accounts cur segs false acctType commodityId fresh k
          = .ok (resolvedId, accounts', k') →
        accounts' = accounts ∧ k' = k)
    ∧ (∀ (fresh : Nat → String) (book : Book) (k : Nat) (r : WriteRequest),
        r.autoCreate = false →
        ((10 : Int) ^ r.nt.amount.scale ∣ r.nt.amount.mantissa * r.denominator) →
        (pathResolvable book.accounts book.rootAccountId r.nt.sourceAccount = false
          ∨ pathResolvable book.accounts book.rootAccountId r.nt.category = false) →
        applyRequest fresh book k r = .error .unmappedAccount
        ∧ queueStep fresh (book, k) r = (book, k)) := by
  refine ⟨fun accounts cur segs t c fresh k h =>
      resolveWalk_noAuto_fail segs accounts cur t c fresh k h,
    fun accounts cur segs t c fresh k i a' k' h =>
      resolveWalk_noAuto_ok segs accounts cur t c fresh k i a' k' h, ?_⟩
  intro fresh book k r hauto hdvd hmiss
  have hfd : fromDecimal r.nt.amount r.denominator =
      .ok ⟨r.nt.amount.mantissa * r.denominator / (10 : Int) ^ r.nt.amount.scale,
           r.denominator⟩ := by
    unfold fromDecimal
    rw [if_pos (Int.emod_eq_zero_of_dvd hdvd)]
  have hc : commit book r.nt r.commodityId r.denominator r.autoCreate
      r.srcType r.dstType fresh k = .error .unmappedAccount := by
    unfold commit
    rw [hfd]
    dsimp only
    by_cases hsrc : pathResolvable book.accounts book.rootAccountId
        r.nt.sourceAccount = false
    · rw [hauto, resolveWalk_noAuto_fail _ _ _ _ _ _ _ hsrc]
    · have hsrc' : pathResolvable book.accounts book.rootAccountId
          r.nt.sourceAccount = true := by
        cases h : pathResolvable book.accounts book.rootAccountId
            r.nt.sourceAccount
        · exact absurd h hsrc
        · rfl
      have hcat : pathResolvable book.accounts book.rootAccountId
          r.nt.category = false := by
        rcases hmiss with h | h
        · exact absurd h hsrc
        · exact h
      obtain ⟨srcId, hres⟩ := resolveWalk_noAuto_succeeds r.nt.sourceAccount
        book.accounts book.rootAccountId r.srcType r.commodityId fresh k hsrc'
      rw [hauto, hres]
      dsimp only
      rw [resolveWalk_noAuto_fail _ _ _ _ _ _ _ hcat]
  exact ⟨by unfold applyRequest; rw [hc],
    by unfold queueStep applyRequest; rw [hc]⟩

/-- C8, witness: Scenario B — category `Unmapped:Category` with auto-create
disabled fails with `UnmappedAccount` and the bootstrap book is unchanged. -/
theorem resolve_unmapped_spec_witness :
    applyRequest exFresh bootstrapBook 0 exReqUnmapped
        = .error .unmappedAccount
    ∧ queueStep exFresh (bootstrapBook, 0) exReqUnmapped = (bootstrapBook, 0)
    ∧ resolveWalk bootstrapBook.accounts "root" ["Unmapped", "Category"] false
        "EXPENSE" "USD" exFresh 0 = .error .unmappedAccount := by
  refine ⟨?_, ?_, ?_⟩
  · exact (resolve_unmapped_spec.2.2 exFresh bootstrapBook 0 exReqUnmapped
      (by decide) (by decide) (Or.inr (by decide))).1
  · exact (resolve_unmapped_spec.2.2 exFresh bootstrapBook 0 exReqUnmapped
      (by decide) (by decide) (Or.inr (by decide))).2
  · exact resolve_unmapped_spec.1 bootstrapBook.accounts "root"
      ["Unmapped", "Category"] "EXPENSE" "USD" exFresh 0 (by decide)

theorem runQueue_length (fresh : Nat → String) :
    ∀ (reqs : List WriteRequest) (book : Book) (k : Nat),
      (runQueue fresh book k reqs).2.2.length = reqs.length := by
  intro reqs
  induction reqs with
  | nil => intro book k; rfl
  | cons r rs ih =>
      intro book k
      unfold runQueue
      cases h : applyRequest fresh book k r with
      | ok v =>
          obtain ⟨b', res, k'⟩ := v
          simp [ih]
      | error e => simp [ih]

theorem runQueue_foldl (fresh : Nat → String) :
    ∀ (reqs : List WriteRequest) (book : Book) (k : Nat),
      ((runQueue fresh book k reqs).1, (runQueue fresh book k reqs).2.1)
        = reqs.foldl (queueStep fresh) (book, k) := by
  intro reqs
  induction reqs with
  | nil => intro book k; rfl
  | cons r rs ih =>
      intro book k
      unfold runQueue
      have hstep : queueStep fresh (book, k) r =
          (match applyRequest fresh book k r with
            | .ok (b', _, k') => (b', k')
            | .error _ => (book, k)) := rfl
      cases h : applyRequest fresh book k r with
      | ok v =>
          obtain ⟨b', res, k'⟩ := v
          simp only [List.foldl_cons, hstep, h]
          exact ih b' k'
      | error e =>
          simp only [List.foldl_cons, hstep, h]
          exact ih book k

theorem runQueue_result (fresh : Nat → String) :
    ∀ (reqs : List WriteRequest) (book : Book) (k : Nat) (i : Nat)
      (r : WriteRequest), reqs[i]? = some r →
      (runQueue fresh book k reqs).2.2[i]? =
        some ((applyRequest fresh
          ((reqs.take i).foldl (queueStep fresh) (book, k)).1
          ((reqs.take i).foldl (queueStep fresh) (book, k)).2 r).map
            (fun x => x.2.1)) := by
  intro reqs
  induction reqs with
  | nil => intro book k i r h; simp at h
  | cons q rs ih =>
      intro book k i r h
      have hstep : queueStep fresh (book, k) q =
          (match applyRequest fresh book k q with
            | .ok (b', _, k') => (b', k')
            | .error _ => (book, k)) := rfl
      cases i with
      | zero =>
          simp only [List.getElem?_cons_zero, Option.some.injEq] at h
          subst h
          unfold runQueue
          cases hq : applyRequest fresh book k q with
          | ok v =>
              obtain ⟨b', res, k'⟩ := v
              simp [List.take_zero, Except.map, hq]
          | error e =>
              simp [List.take_zero, Except.map, hq]
      | succ i =>
          simp only [List.getElem?_cons_succ] at h
          unfold runQueue
          cases hq : applyRequest fresh book k q with
          | ok v =>
              obtain ⟨b', res, k'⟩ := v
              simp only [List.take_succ_cons, List.foldl_cons, hstep, hq,
                List.getElem?_cons_succ]
              exact ih b' k' i r h
          | error e =>
              simp only [List.take_succ_cons, List.foldl_cons, hstep, hq,
                List.getElem?_cons_succ]
              exact ih book k i r h

/-- C3: the write-serialization queue's single worker answers every request
and processes them strictly in arrival (FIFO) order: the final state equals
the in-order sequential fold of the requests (writes commit in submission
order with no reordering), the i-th result is computed against exactly the
state produced by the first i requests, and each request is all-or-nothing:
a failed request leaves the book and the identifier counter unchanged. -/
theorem writeQueue_fifo_atomic (fresh : Nat → String) (book : Book) (k : Nat)
    (reqs : List WriteRequest) :
    (runQueue fresh book k reqs).2.2.length = reqs.length
    ∧ ((runQueue fresh book k reqs).1, (runQueue fresh book k reqs).2.1)
        = reqs.foldl (queueStep fresh) (book, k)
    ∧ (∀ (i : Nat) (r : WriteRequest), reqs[i]? = some r →
        (runQueue fresh book k reqs).2.2[i]? =
          some ((applyRequest fresh
            ((reqs.take i).foldl (queueStep fresh) (book, k)).1
            ((reqs.take i).foldl (queueStep fresh) (book, k)).2 r).map
              (fun x => x.2.1)))
    ∧ (∀ (s : Book × Nat) (r : WriteRequest) (e : CommitError),
        applyRequest fresh s.1 s.2 r = .error e → queueStep fresh s r = s) := by
  refine ⟨runQueue_length fresh reqs book k, runQueue_foldl fresh reqs book k,
    runQueue_result fresh reqs book k, ?_⟩
  intro s r e h
  unfold queueStep
  rw [h]

/-- C3, witness: the two-request concrete queue — both requests are
answered in order, the second (failing) request's result is computed after
the first's commit, and the failing step leaves the state unchanged. -/
theorem writeQueue_fifo_atomic_witness :
    (runQueue exFresh bootstrapBook 0 exRequests).2.2.length = 2
    ∧ (runQueue exFresh bootstrapBook 0 exRequests).2.2[1]? =
        some (.error .precisionError)
    ∧ queueStep exFresh (exBook1, 7) exReq2 = (exBook1, 7) := by
  obtain ⟨h1, -, h3, h4⟩ := writeQueue_fifo_atomic exFresh bootstrapBook 0 exRequests
  refine ⟨h1, ?_, ?_⟩
  · rw [h3 1 exReq2 (by decide)]
    decide
  · exact h4 (exBook1, 7) exReq2 .precisionError (by decide)

/-! ## Helper lemmas on the statement store and processor -/

theorem insertLogEntry_ok_shape {db : MetaDB} {sid lvl stg msg now : String}
    {db' : MetaDB} (h : insertLogEntry db sid lvl stg msg now = .ok db') :
    db' = { db with processingLog := db.processingLog ++
      [{ statementId := sid, level := lvl, stage := stg, message := msg,
         createdAt := now }] } := by
  unfold insertLogEntry at h
  split at h
  · simp only [Except.ok.injEq] at h
    exact h.symm
  · exact absurd h (by simp)

@[simp]
theorem storeLog_statements (env : ProcEnv) (st : ProcState)
    (sid lvl stg msg : String) :
    (storeLog env st sid lvl stg msg).db.statements = st.db.statements := by
  unfold storeLog
  cases h : insertLogEntry st.db sid lvl stg msg env.now with
  | ok db' => rw [insertLogEntry_ok_shape h]
  | error e => rfl

@[simp]
theorem storeLog_transactionsRaw (env : ProcEnv) (st : ProcState)
    (sid lvl stg msg : String) :
    (storeLog env st sid lvl stg msg).db.transactionsRaw
      = st.db.transactionsRaw := by
  unfold storeLog
  cases h : insertLogEntry st.db sid lvl stg msg env.now with
  | ok db' => rw [insertLogEntry_ok_shape h]
  | error e => rfl

theorem storeLog_log_append (env : ProcEnv) (st : ProcState)
    (sid lvl stg msg : String) :
    ∃ new, (storeLog env st sid lvl stg msg).db.processingLog
      = st.db.processingLog ++ new := by
  unfold storeLog
  cases h : insertLogEntry st.db sid lvl stg msg env.now with
  | ok db' => exact ⟨_, by rw [insertLogEntry_ok_shape h]⟩
  | error e => exact ⟨[], by simp⟩

@[simp]
theorem storeLog_uuidCount (env : ProcEnv) (st : ProcState)
    (sid lvl stg msg : String) :
    (storeLog env st sid lvl stg msg).uuidCount = st.uuidCount := by
  unfold storeLog
  cases h : insertLogEntry st.db sid lvl stg msg env.now with
  | ok db' => rfl
  | error e => rfl

@[simp]
theorem storeLog_rawCalls (env : ProcEnv) (st : ProcState)
    (sid lvl stg msg : String) :
    (storeLog env st sid lvl stg msg).rawCalls = st.rawCalls := by
  unfold storeLog
  cases h : insertLogEntry st.db sid lvl stg msg env.now with
  | ok db' => rfl
  | error e => rfl

@[simp]
theorem storeLog_extractCalls (env : ProcEnv) (st : ProcState)
    (sid lvl stg msg : String) :
    (storeLog env st sid lvl stg msg).extractCalls = st.extractCalls := by
  unfold storeLog
  cases h : insertLogEntry st.db sid lvl stg msg env.now with
  | ok db' => rfl
  | error e => rfl

theorem createStatement_ok_shape {db : MetaDB} {entropy : List Nat}
    {now fn fh : String} {fs : Int} {mt acct an sd : String}
    {db' : MetaDB} {newId : String}
    (h : createStatement db entropy now fn fh fs mt acct an sd
      = .ok (db', newId)) :
    newId = newUUIDString entropy
    ∧ db' = { db with statements := db.statements ++
        [{ id := newUUIDString entropy, filename := fn, fileHash := fh,
           fileSize := fs, mimeType := mt, status := "pending",
           transactionCount := 0, accountType := acct, accountName := an,
           statementDate := sd, errorMessage := "", uploadTime := now,
           processedTime := "" }] }
    ∧ (db.statements.any (fun r => r.id == newUUIDString entropy)) = false
    ∧ (db.statements.any (fun r => r.fileHash == fh)) = false := by
  unfold createStatement at h
  split at h
  · exact absurd h (by simp)
  case isFalse h1 =>
    split at h
    · exact absurd h (by simp)
    case isFalse h2 =>
      simp only [Except.ok.injEq, Prod.mk.injEq] at h
      obtain ⟨hdb, hid⟩ := h
      exact ⟨hid.symm, hdb.symm, by simpa using h1, by simpa using h2⟩

theorem createStatement_eq_ok {db : MetaDB} {entropy : List Nat}
    {now fn fh : String} {fs : Int} {mt acct an sd : String}
    (hid : (db.statements.any (fun r => r.id == newUUIDString entropy)) = false)
    (hhash : (db.statements.any (fun r => r.fileHash == fh)) = false) :
    createStatement db entropy now fn fh fs mt acct an sd
      = .ok ({ db with statements := db.statements ++
          [{ id := newUUIDString entropy, filename := fn, fileHash := fh,
             fileSize := fs, mimeType := mt, status := "pending",
             transactionCount := 0, accountType := acct, accountName := an,
             statementDate := sd, errorMessage := "", uploadTime := now,
             processedTime := "" }] }, newUUIDString entropy) := by
  unfold createStatement
  rw [if_neg (by simp [hid]), if_neg (by simp [hhash])]

theorem updateStatus_ok_shape {db : MetaDB} {sid status : String} {db' : MetaDB}
    (h : updateStatus db sid status = .ok db') :
    db' = updateRow db sid (fun r => { r with status := status }) := by
  unfold updateStatus at h
  split at h
  · simp only [Except.ok.injEq] at h
    exact h.symm
  · exact absurd h (by simp)

theorem updateStatus_processing_eq (db : MetaDB) (sid : String) :
    updateStatus db sid "processing"
      = .ok (updateRow db sid (fun r => { r with status := "processing" })) := by
  unfold updateStatus
  rw [if_pos (by decide)]

theorem insertTransactionRaw_ok_shape {db : MetaDB} {entropy : List Nat}
    {sid : String} {i : Int} {hj rj now : String} {db' : MetaDB} {newId : String}
    (h : insertTransactionRaw db entropy sid i hj rj now = .ok (db', newId)) :
    db'.statements = db.statements
    ∧ (∃ row, db'.transactionsRaw = db.transactionsRaw ++ [row])
    ∧ db'.processingLog = db.processingLog := by
  unfold insertTransactionRaw at h
  split at h
  · exact absurd h (by simp)
  split at h
  · exact absurd h (by simp)
  simp only [Except.ok.injEq, Prod.mk.injEq] at h
  obtain ⟨hdb, -⟩ := h
  rw [← hdb]
  exact ⟨rfl, ⟨_, rfl⟩, rfl⟩

@[simp]
theorem rawInsert_statements (env : ProcEnv) (st : ProcState) (sid : String)
    (i : Int) (hj rj : String) :
    (rawInsert env st sid i hj rj).1.db.statements = st.db.statements := by
  unfold rawInsert
  cases h : env.rawInsertErr st.rawCalls with
  | some e => rfl
  | none =>
      cases hins : insertTransactionRaw st.db (env.uuidEntropy st.uuidCount)
          sid i hj rj env.now with
      | ok v =>
          obtain ⟨db', newId⟩ := v
          exact (insertTransactionRaw_ok_shape hins).1
      | error e => rfl

@[simp]
theorem rawInsert_processingLog (env : ProcEnv) (st : ProcState) (sid : String)
    (i : Int) (hj rj : String) :
    (rawInsert env st sid i hj rj).1.db.processingLog
      = st.db.processingLog := by
  unfold rawInsert
  cases h : env.rawInsertErr st.rawCalls with
  | some e => rfl
  | none =>
      cases hins : insertTransactionRaw st.db (env.uuidEntropy st.uuidCount)
          sid i hj rj env.now with
      | ok v =>
          obtain ⟨db', newId⟩ := v
          exact (insertTransactionRaw_ok_shape hins).2.2
      | error e => rfl

theorem rawInsert_raw_append (env : ProcEnv) (st : ProcState) (sid : String)
    (i : Int) (hj rj : String) :
    ∃ new, (rawInsert env st sid i hj rj).1.db.transactionsRaw
      = st.db.transactionsRaw ++ new := by
  unfold rawInsert
  cases h : env.rawInsertErr st.rawCalls with
  | some e => exact ⟨[], by simp⟩
  | none =>
      cases hins : insertTransactionRaw st.db (env.uuidEntropy st.uuidCount)
          sid i hj rj env.now with
      | ok v =>
          obtain ⟨db', newId⟩ := v
          obtain ⟨row, hrow⟩ := (insertTransactionRaw_ok_shape hins).2.1
          exact ⟨[row], hrow⟩
      | error e => exact ⟨[], by simp⟩

@[simp]
theorem rawInsert_extractCalls (env : ProcEnv) (st : ProcState) (sid : String)
    (i : Int) (hj rj : String) :
    (rawInsert env st sid i hj rj).1.extractCalls = st.extractCalls := by
  unfold rawInsert
  cases h : env.rawInsertErr st.rawCalls with
  | some e => rfl
  | none =>
      cases hins : insertTransactionRaw st.db (env.uuidEntropy st.uuidCount)
          sid i hj rj env.now with
      | ok v => obtain ⟨db', newId⟩ := v; rfl
      | error e => rfl

theorem insertRows_shape (env : ProcEnv) (sid hj : String) :
    ∀ (rows : List (List String)) (n : Nat) (st : ProcState),
      (insertRows env sid hj rows n st).1.db.statements = st.db.statements
      ∧ (insertRows env sid hj rows n st).1.db.processingLog
          = st.db.processingLog
      ∧ (∃ new, (insertRows env sid hj rows n st).1.db.transactionsRaw
          = st.db.transactionsRaw ++ new)
      ∧ (insertRows env sid hj rows n st).1.extractCalls = st.extractCalls := by
  intro rows
  induction rows with
  | nil =>
      intro n st
      refine ⟨rfl, rfl, ⟨[], ?_⟩, rfl⟩
      show st.db.transactionsRaw = st.db.transactionsRaw ++ []
      rw [List.append_nil]
  | cons row rest ih =>
      intro n st
      have hs := rawInsert_statements env st sid (Int.ofNat n) hj (env.marshal row)
      have hl := rawInsert_processingLog env st sid (Int.ofNat n) hj (env.marshal row)
      obtain ⟨new1, hraw⟩ :=
        rawInsert_raw_append env st sid (Int.ofNat n) hj (env.marshal row)
      have he := rawInsert_extractCalls env st sid (Int.ofNat n) hj (env.marshal row)
      unfold insertRows
      cases hq : rawInsert env st sid (Int.ofNat n) hj (env.marshal row) with
      | mk st' res =>
          rw [hq] at hs hl hraw he
          cases res with
          | error e => exact ⟨hs, hl, ⟨new1, hraw⟩, he⟩
          | ok u =>
              obtain ⟨ih1, ih2, ⟨new2, ih3⟩, ih4⟩ := ih (n + 1) st'
              refine ⟨by rw [ih1, hs], by rw [ih2, hl], ⟨new1 ++ new2, ?_⟩,
                by rw [ih4, he]⟩
              rw [ih3, hraw, List.append_assoc]

theorem insertTables_shape (env : ProcEnv) (sid : String) :
    ∀ (tables : List ExtractTable) (n : Nat) (st : ProcState),
      (insertTables env sid tables n st).1.db.statements = st.db.statements
      ∧ (insertTables env sid tables n st).1.db.processingLog
          = st.db.processingLog
      ∧ (∃ new, (insertTables env sid tables n st).1.db.transactionsRaw
          = st.db.transactionsRaw ++ new)
      ∧ (insertTables env sid tables n st).1.extractCalls = st.extractCalls := by
  intro tables
  induction tables with
  | nil =>
      intro n st
      refine ⟨rfl, rfl, ⟨[], ?_⟩, rfl⟩
      show st.db.transactionsRaw = st.db.transactionsRaw ++ []
      rw [List.append_nil]
  | cons table rest ih =>
      intro n st
      obtain ⟨hs, hl, ⟨new1, hraw⟩, he⟩ :=
        insertRows_shape env sid (env.marshal table.headers) table.rows n st
      unfold insertTables
      cases hq : insertRows env sid (env.marshal table.headers) table.rows n st with
      | mk st' res =>
          rw [hq] at hs hl hraw he
          cases res with
          | error e => exact ⟨hs, hl, ⟨new1, hraw⟩, he⟩
          | ok m =>
              obtain ⟨ih1, ih2, ⟨new2, ih3⟩, ih4⟩ := ih m st'
              refine ⟨by rw [ih1, hs], by rw [ih2, hl], ⟨new1 ++ new2, ?_⟩,
                by rw [ih4, he]⟩
              rw [ih3, hraw, List.append_assoc]

theorem storeExtractionResults_shape (env : ProcEnv) (sid : String) :
    ∀ (results : List ExtractionResult) (n : Nat) (st : ProcState),
      (storeExtractionResults env sid results n st).1.db.statements
          = st.db.statements
      ∧ (storeExtractionResults env sid results n st).1.db.processingLog
          = st.db.processingLog
      ∧ (∃ new, (storeExtractionResults env sid results n st).1.db.transactionsRaw
          = st.db.transactionsRaw ++ new)
      ∧ (storeExtractionResults env sid results n st).1.extractCalls
          = st.extractCalls := by
  intro results
  induction results with
  | nil =>
      intro n st
      refine ⟨rfl, rfl, ⟨[], ?_⟩, rfl⟩
      show st.db.transactionsRaw = st.db.transactionsRaw ++ []
      rw [List.append_nil]
  | cons res rest ih =>
      intro n st
      obtain ⟨hs, hl, ⟨new1, hraw⟩, he⟩ := insertTables_shape env sid res.tables n st
      unfold storeExtractionResults
      cases hq : insertTables env sid res.tables n st with
      | mk st' out =>
          rw [hq] at hs hl hraw he
          cases out with
          | error e => exact ⟨hs, hl, ⟨new1, hraw⟩, he⟩
          | ok m =>
              obtain ⟨ih1, ih2, ⟨new2, ih3⟩, ih4⟩ := ih m st'
              refine ⟨by rw [ih1, hs], by rw [ih2, hl], ⟨new1 ++ new2, ?_⟩,
                by rw [ih4, he]⟩
              rw [ih3, hraw, List.append_assoc]

theorem findIdByHash_map (l : List StatementRow) (sid : String)
    (u : StatementRow → StatementRow)
    (hu_id : ∀ r, (u r).id = r.id) (hu_h : ∀ r, (u r).fileHash = r.fileHash)
    (fh : String) :
    findIdByHash (l.map (fun r => if r.id == sid then u r else r)) fh
      = findIdByHash l fh := by
  induction l with
  | nil => rfl
  | cons r t ih =>
      simp only [List.map_cons]
      unfold findIdByHash
      cases hp : (r.fileHash == fh) with
      | true =>
          have hp' : ((if r.id == sid then u r else r).fileHash == fh) = true := by
            split
            · rw [hu_h]; exact hp
            · exact hp
          simp only [List.find?_cons, hp, hp', Option.map_some']
          congr 1
          split
          · rw [hu_id]
          · rfl
      | false =>
          have hp' : ((if r.id == sid then u r else r).fileHash == fh) = false := by
            split
            · rw [hu_h]; exact hp
            · exact hp
          simp only [List.find?_cons, hp, hp']
          exact ih

theorem findIdByHash_append_fresh (l : List StatementRow) (row : StatementRow)
    (fh : String) (hl : ∀ q ∈ l, (q.fileHash == fh) = false)
    (hrow : (row.fileHash == fh) = true) :
    findIdByHash (l ++ [row]) fh = some row.id := by
  induction l with
  | nil =>
      unfold findIdByHash
      rw [List.nil_append]
      simp only [List.find?_cons, hrow, Option.map_some']
  | cons q t ih =>
      have hq : (q.fileHash == fh) = false := hl q (by simp)
      unfold findIdByHash
      rw [List.cons_append]
      simp only [List.find?_cons, hq]
      exact ih (fun x hx => hl x (by simp [hx]))

theorem map_updateIf_append_fresh (l : List StatementRow) (row : StatementRow)
    (sid : String) (u : StatementRow → StatementRow)
    (hl : ∀ q ∈ l, (q.id == sid) = false) (hrow : (row.id == sid) = true) :
    (l ++ [row]).map (fun r => if r.id == sid then u r else r)
      = l ++ [u row] := by
  rw [List.map_append]
  have h1 : l.map (fun r => if r.id == sid then u r else r) = l := by
    induction l with
    | nil => rfl
    | cons q t ih =>
        simp only [List.map_cons]
        rw [if_neg (by simp [hl q (by simp)]),
          ih (fun x hx => hl x (by simp [hx]))]
  rw [h1]
  simp only [List.map_cons, List.map_nil]
  rw [if_pos hrow]

theorem any_hash_false_of_find_none {db : MetaDB} {fh : String}
    (h : getStatementByHash db fh = none) :
    (db.statements.any (fun r => r.fileHash == fh)) = false := by
  unfold getStatementByHash at h
  rw [List.find?_eq_none] at h
  rw [List.any_eq_false]
  exact h

theorem storeExtractionResults_fst_statements {env : ProcEnv} {sid : String}
    {results : List ExtractionResult} {n : Nat} {st st' : ProcState}
    {out : Except String Nat}
    (h : storeExtractionResults env sid results n st = (st', out)) :
    st'.db.statements = st.db.statements := by
  have hs := (storeExtractionResults_shape env sid results n st).1
  rw [h] at hs
  exact hs

theorem process_ok_not_dup {env : ProcEnv} {maxSizeMB : Int}
    {allowedTypes : List String} {fn : String} {data : List Nat}
    {acct an sd : String} {st st' : ProcState} {r : ProcessResult}
    (h : process env maxSizeMB allowedTypes fn data acct an sd st = (st', .ok r))
    (hdup : r.duplicate = false) :
    (∃ m, validateFile env.detect data maxSizeMB allowedTypes = .ok m)
    ∧ findIdByHash st'.db.statements (env.hash data) = some r.statementID := by
  unfold process at h
  split at h
  · exact absurd (congrArg Prod.snd h) (by simp)
  next mimeType hval =>
    try dsimp only at h
    split at h
    next ex hfind =>
      have hsnd := congrArg Prod.snd h
      simp only [Except.ok.injEq] at hsnd
      rw [← hsnd] at hdup
      simp at hdup
    next hfind =>
      split at h
      · exact absurd (congrArg Prod.snd h) (by simp)
      next db1 sid hcr =>
        obtain ⟨hsid, hdb1, -, hhashfresh⟩ := createStatement_ok_shape hcr
        have hlfresh : ∀ q ∈ st.db.statements,
            (q.fileHash == env.hash data) = false := by
          intro q hq
          have h' := List.any_eq_false.mp hhashfresh q hq
          simpa using h'
        have hrowh : ∀ row : StatementRow, row.fileHash = env.hash data →
            (row.fileHash == env.hash data) = true := by
          intro row hr
          rw [hr]
          exact beq_self_eq_true _
        try dsimp only at h
        split at h
        next e hup =>
          rw [updateStatus_processing_eq] at hup
          exact absurd hup (by simp)
        next db2 hup =>
          have hdb2 := updateStatus_ok_shape hup
          subst hdb2
          try dsimp only at h
          split at h
          next e hext =>
            simp only [Prod.mk.injEq, Except.ok.injEq] at h
            obtain ⟨hst, hr⟩ := h
            subst hst
            subst hr
            refine ⟨⟨mimeType, hval⟩, ?_⟩
            simp only [markFailed, updateRow, storeLog_statements, hdb1]
            rw [findIdByHash_map]
            rw [findIdByHash_map]
            rw [findIdByHash_append_fresh _ _ _ hlfresh (hrowh _ rfl)]
            rw [hsid]
            all_goals exact fun q => rfl
          next results hext =>
            try dsimp only at h
            split at h
            next st7 e hsr =>
              have hshape := storeExtractionResults_fst_statements hsr
              simp only [Prod.mk.injEq, Except.ok.injEq] at h
              obtain ⟨hst, hr⟩ := h
              subst hst
              subst hr
              refine ⟨⟨mimeType, hval⟩, ?_⟩
              simp only [markFailed, updateRow, storeLog_statements, hshape, hdb1]
              rw [findIdByHash_map]
              rw [findIdByHash_map]
              rw [findIdByHash_append_fresh _ _ _ hlfresh (hrowh _ rfl)]
              rw [hsid]
              all_goals exact fun q => rfl
            next st7 rowCount hsr =>
              have hshape := storeExtractionResults_fst_statements hsr
              simp only [Prod.mk.injEq, Except.ok.injEq] at h
              obtain ⟨hst, hr⟩ := h
              subst hst
              subst hr
              refine ⟨⟨mimeType, hval⟩, ?_⟩
              simp only [markProcessed, updateRow, storeLog_statements, hshape, hdb1]
              rw [findIdByHash_map]
              rw [findIdByHash_map]
              rw [findIdByHash_append_fresh _ _ _ hlfresh (hrowh _ rfl)]
              rw [hsid]
              all_goals exact fun q => rfl

/-- C4: when an upload has created a statement record, a second upload of
byte-identical file content is detected as a duplicate by its content hash:
`Process` returns the first statement's identifier with `Duplicate` set to
true and the state exactly unchanged — no second statement record is
created and the extraction service is not invoked again. -/
theorem process_duplicate_detection {env : ProcEnv} {maxSizeMB : Int}
    {allowedTypes : List String} {fn1 : String} {data : List Nat}
    {acct1 an1 sd1 : String} {st0 st1 : ProcState} {r1 : ProcessResult}
    (h1 : process env maxSizeMB allowedTypes fn1 data acct1 an1 sd1 st0
      = (st1, .ok r1))
    (hdup : r1.duplicate = false) (fn2 acct2 an2 sd2 : String) :
    ∃ r2, process env maxSizeMB allowedTypes fn2 data acct2 an2 sd2 st1
        = (st1, .ok r2)
      ∧ r2.duplicate = true ∧ r2.statementID = r1.statementID := by
  obtain ⟨⟨m, hval⟩, hfind⟩ := process_ok_not_dup h1 hdup
  unfold process
  rw [hval]
  dsimp only
  cases hf : getStatementByHash st1.db (env.hash data) with
  | none =>
      unfold findIdByHash at hfind
      unfold getStatementByHash at hf
      rw [hf] at hfind
      exact absurd hfind (by simp)
  | some ex =>
      have hid : ex.id = r1.statementID := by
        unfold findIdByHash at hfind
        unfold getStatementByHash at hf
        rw [hf] at hfind
        simpa using hfind
      exact ⟨_, rfl, rfl, hid⟩

theorem log_extends_trans {l2 l1 l0 : List LogRow}
    (h12 : ∃ n, l2 = l1 ++ n) (h01 : ∃ n, l1 = l0 ++ n) :
    ∃ n, l2 = l0 ++ n := by
  obtain ⟨n2, h2⟩ := h12
  obtain ⟨n1, h1⟩ := h01
  exact ⟨n1 ++ n2, by rw [h2, h1, List.append_assoc]⟩

theorem storeExtractionResults_fst_raw {env : ProcEnv} {sid : String}
    {results : List ExtractionResult} {n : Nat} {st st' : ProcState}
    {out : Except String Nat}
    (h : storeExtractionResults env sid results n st = (st', out)) :
    ∃ new, st'.db.transactionsRaw = st.db.transactionsRaw ++ new := by
  have hs := (storeExtractionResults_shape env sid results n st).2.2.1
  rw [h] at hs
  exact hs

theorem storeExtractionResults_fst_log {env : ProcEnv} {sid : String}
    {results : List ExtractionResult} {n : Nat} {st st' : ProcState}
    {out : Except String Nat}
    (h : storeExtractionResults env sid results n st = (st', out)) :
    st'.db.processingLog = st.db.processingLog := by
  have hs := (storeExtractionResults_shape env sid results n st).2.1
  rw [h] at hs
  exact hs

/-- C5: when extraction fails, `Process` returns a structured
`ProcessResult` (not a bare error) with status `failed`, the originating
statement record ends with status `failed` carrying the specific error
message, and the prior committed state is untouched — earlier statement
rows survive unchanged, the raw-transaction table gains nothing, and
earlier log rows are preserved.  And when extraction succeeds, every run
of the storage step is covered: either every row is stored and the result
is `processed`, or storage fails at some row (any index: `rawInsert` can
error on any call) and `Process` returns a structured `failed` result,
the statement row carries the storage step's specific error message, the
prior statement rows survive unchanged, prior raw-transaction rows are
preserved (rows stored before the failing insert remain, as in Go, where
each insert is an independent statement), and earlier log rows are
preserved. -/
theorem process_failure_spec :
    (∀ (env : ProcEnv) (maxSizeMB : Int) (allowedTypes : List String)
        (fn : String) (data : List Nat) (acct an sd : String) (st : ProcState)
        (mimeType e : String),
        validateFile env.detect data maxSizeMB allowedTypes = .ok mimeType →
        getStatementByHash st.db (env.hash data) = none →
        (st.db.statements.any
          (fun q => q.id == newUUIDString (env.uuidEntropy st.uuidCount)))
          = false →
        env.extract fn data mimeType = .error e →
        ∃ st', process env maxSizeMB allowedTypes fn data acct an sd st
            = (st', .ok { statementID := newUUIDString (env.uuidEntropy st.uuidCount)
                          filename := fn
                          status := "failed"
                          transactionsExtracted := 0
                          duplicate := false })
          ∧ st'.db.statements = st.db.statements ++
              [{ id := newUUIDString (env.uuidEntropy st.uuidCount)
                 filename := fn
                 fileHash := env.hash data
                 fileSize := Int.ofNat data.length
                 mimeType := mimeType
                 status := "failed"
                 transactionCount := 0
                 accountType := acct
                 accountName := an
                 statementDate := sd
                 errorMessage := e
                 uploadTime := env.now
                 processedTime := env.now }]
          ∧ st'.db.transactionsRaw = st.db.transactionsRaw
          ∧ (∃ newLogs, st'.db.processingLog = st.db.processingLog ++ newLogs))
    ∧ (∀ (env : ProcEnv) (maxSizeMB : Int) (allowedTypes : List String)
        (fn : String) (data : List Nat) (acct an sd : String) (st : ProcState)
        (mimeType : String) (results : List ExtractionResult),
        validateFile env.detect data maxSizeMB allowedTypes = .ok mimeType →
        getStatementByHash st.db (env.hash data) = none →
        (st.db.statements.any
          (fun q => q.id == newUUIDString (env.uuidEntropy st.uuidCount)))
          = false →
        env.extract fn data mimeType = .ok results →
        (∃ st' n, process env maxSizeMB allowedTypes fn data acct an sd st
            = (st', .ok { statementID := newUUIDString (env.uuidEntropy st.uuidCount)
                          filename := fn
                          status := "processed"
                          transactionsExtracted := Int.ofNat n
                          duplicate := false }))
        ∨ (∃ st' msg, process env maxSizeMB allowedTypes fn data acct an sd st
            = (st', .ok { statementID := newUUIDString (env.uuidEntropy st.uuidCount)
                          filename := fn
                          status := "failed"
                          transactionsExtracted := 0
                          duplicate := false })
          ∧ (∃ stMid st7, storeExtractionResults env
              (newUUIDString (env.uuidEntropy st.uuidCount)) results 0 stMid
              = (st7, .error msg))
          ∧ st'.db.statements = st.db.statements ++
              [{ id := newUUIDString (env.uuidEntropy st.uuidCount)
                 filename := fn
                 fileHash := env.hash data
                 fileSize := Int.ofNat data.length
                 mimeType := mimeType
                 status := "failed"
                 transactionCount := 0
                 accountType := acct
                 accountName := an
                 statementDate := sd
                 errorMessage := msg
                 uploadTime := env.now
                 processedTime := env.now }]
          ∧ (∃ newRaws, st'.db.transactionsRaw = st.db.transactionsRaw ++ newRaws)
          ∧ (∃ newLogs, st'.db.processingLog = st.db.processingLog ++ newLogs))) := by
  constructor
  · intro env maxSizeMB allowedTypes fn data acct an sd st mimeType e
      hval hfind hid hext
    have hhash := any_hash_false_of_find_none hfind
    have hfresh' : ∀ q ∈ st.db.statements,
        (q.id == newUUIDString (env.uuidEntropy st.uuidCount)) = false := by
      intro q hq
      have h' := List.any_eq_false.mp hid q hq
      simpa using h'
    unfold process
    try dsimp only
    rw [hval]
    try dsimp only
    rw [hfind]
    try dsimp only
    rw [createStatement_eq_ok hid hhash]
    try dsimp only
    rw [updateStatus_processing_eq]
    try dsimp only
    rw [hext]
    try dsimp only
    refine ⟨_, rfl, ?_, ?_, ?_⟩
    · simp only [markFailed, updateRow, storeLog_statements]
      rw [map_updateIf_append_fresh _ _ _ _ hfresh' (beq_self_eq_true _)]
      rw [map_updateIf_append_fresh _ _ _ _ hfresh' (beq_self_eq_true _)]
    · simp only [markFailed, updateRow, storeLog_transactionsRaw]
    · simp only [markFailed, updateRow]
      refine log_extends_trans (storeLog_log_append _ _ _ _ _ _) ?_
      refine log_extends_trans (storeLog_log_append _ _ _ _ _ _) ?_
      refine log_extends_trans (storeLog_log_append _ _ _ _ _ _) ?_
      exact ⟨[], (List.append_nil _).symm⟩
  · intro env maxSizeMB allowedTypes fn data acct an sd st mimeType results
      hval hfind hid hext
    have hhash := any_hash_false_of_find_none hfind
    have hfresh' : ∀ q ∈ st.db.statements,
        (q.id == newUUIDString (env.uuidEntropy st.uuidCount)) = false := by
      intro q hq
      have h' := List.any_eq_false.mp hid q hq
      simpa using h'
    unfold process
    try dsimp only
    rw [hval]
    try dsimp only
    rw [hfind]
    try dsimp only
    rw [createStatement_eq_ok hid hhash]
    try dsimp only
    rw [updateStatus_processing_eq]
    try dsimp only
    rw [hext]
    try dsimp only
    split
    case _ st7 e heq =>
      refine Or.inr ⟨_, e, rfl, ⟨_, _, heq⟩, ?_, ?_, ?_⟩
      · have hstm := storeExtractionResults_fst_statements heq
        simp only [markFailed, updateRow, storeLog_statements, hstm]
        rw [map_updateIf_append_fresh _ _ _ _ hfresh' (beq_self_eq_true _)]
        rw [map_updateIf_append_fresh _ _ _ _ hfresh' (beq_self_eq_true _)]
      · obtain ⟨newRaws, hr7⟩ := storeExtractionResults_fst_raw heq
        simp only [markFailed, updateRow, storeLog_transactionsRaw]
        rw [hr7]
        simp only [storeLog_transactionsRaw, updateRow]
        exact ⟨newRaws, rfl⟩
      · have hl7 := storeExtractionResults_fst_log heq
        simp only [markFailed, updateRow]
        refine log_extends_trans (storeLog_log_append _ _ _ _ _ _) ?_
        rw [hl7]
        refine log_extends_trans (storeLog_log_append _ _ _ _ _ _) ?_
        refine log_extends_trans (storeLog_log_append _ _ _ _ _ _) ?_
        refine log_extends_trans (storeLog_log_append _ _ _ _ _ _) ?_
        exact ⟨[], (List.append_nil _).symm⟩
    case _ st7 rowCount heq =>
      exact Or.inl ⟨_, rowCount, rfl⟩

/-- C4, witness: re-uploading the same bytes through the concrete
environment leaves the processor state (metadata database and extraction
counter) exactly unchanged. -/
theorem process_duplicate_detection_witness :
    (process exEnv 1 ["application/pdf"] "b.pdf" pdfMagic "x" "y" "z"
      exRun1.1).1 = exRun1.1 := by
  have h1 : process exEnv 1 ["application/pdf"] "a.pdf" pdfMagic "checking"
      "acct" "2026-01" initialState = (exRun1.1, .ok exResult1) := by decide
  obtain ⟨r2, h2, -, -⟩ :=
    process_duplicate_detection h1 (by decide) "b.pdf" "x" "y" "z"
  rw [h2]

/-- C5, witness: the extraction-failure run leaves the raw-transaction
table empty, and the storage-failure run (driver error injected on the
second raw insert, mid-loop) still returns a structured `failed`
`ProcessResult`. -/
theorem process_failure_spec_witness :
    (process exEnvExtractFail 1 ["application/pdf"] "a.pdf" pdfMagic "c" "a"
        "d" initialState).1.db.transactionsRaw = []
    ∧ (process exEnvStorageFail 1 ["application/pdf"] "a.pdf" pdfMagic "c" "a"
        "d" initialState).2 =
        .ok { statementID := newUUIDString (exEnvStorageFail.uuidEntropy 0)
              filename := "a.pdf"
              status := "failed"
              transactionsExtracted := 0
              duplicate := false } := by
  constructor
  · obtain ⟨st', hp, hs, hraw, hlogs⟩ := process_failure_spec.1 exEnvExtractFail
      1 ["application/pdf"] "a.pdf" pdfMagic "c" "a" "d" initialState
      "application/pdf" "kreuzberg returned status 503"
      (by decide) (by decide) (by decide) (by decide)
    rw [hp]
    exact hraw
  · rcases process_failure_spec.2 exEnvStorageFail 1 ["application/pdf"]
      "a.pdf" pdfMagic "c" "a" "d" initialState "application/pdf"
      [⟨[⟨["date", "amount"], [["2026-01-01", "10.50"], ["2026-01-02", "3.25"]]⟩]⟩]
      (by decide) (by decide) (by decide) (by decide) with
      ⟨st', n, hp⟩ | ⟨st', msg, hp, hsr, hs, hraw, hlogs⟩
    · exfalso
      have h2 := congrArg Prod.snd hp
      have h3 : (process exEnvStorageFail 1 ["application/pdf"] "a.pdf" pdfMagic
          "c" "a" "d" initialState).2 =
          .ok { statementID := newUUIDString (exEnvStorageFail.uuidEntropy 0)
                filename := "a.pdf"
                status := "failed"
                transactionsExtracted := 0
                duplicate := false } := by decide
      rw [h3] at h2
      simp only [Except.ok.injEq, ProcessResult.mk.injEq] at h2
      exact absurd h2.2.2.1 (by decide)
    · exact congrArg Prod.snd hp

end MoneyManager
